import Mathlib

/-!
Verification development for the SCRAMBLER_API core (profiling and synthesis
engines, `app/services/profile.py` and `app/services/synth.py`).

Shallow-embedding conventions:
* Python floats and `Decimal` values are modelled as exact rationals (`Rat`);
  `float("inf")`/`float("nan")` parse to `none` in the model.
* `datetime` values are modelled as whole seconds since 1970-01-01 (proleptic
  Gregorian); `isoformat`/`fromisoformat` round-trip through this integer, and
  ISO-8601 rendering is order-preserving, so date comparisons are `Int` ones.
* The CSV text layer is modelled after parsing: `profile_from_text` becomes
  `profileFromRows` over the header list and the list of data records, with the
  resolved delimiter and encoding passed through (as `profile_upload` does).
* The process-wide `random` generator is modelled as an explicit stream of
  naturals (`RandState`); `random.seed` makes the stream a pure function of the
  seed, `random.random`, `random.randint`, `random.choice`, `random.uniform`
  and `random.choices` are derived draws with the documented ranges.
* `int()` parsing ignores the underscore-digit extension; `str.strip` strips
  ASCII whitespace.
-/

/- Batteries marks the rational primitives `@[irreducible]`, which blocks
`decide`-style evaluation of the model; restore the default transparency. -/
attribute [local semireducible] Rat.add Rat.sub Rat.mul Rat.inv

/-- Model of `config.MAX_ROWS`. -/
def MAX_ROWS : Nat := 100000

/-- Model of `config.FAST_SAMPLE_ROWS`. -/
def FAST_SAMPLE_ROWS : Nat := 5000

/-- Model of `config.ParseMode`. -/
inductive ParseMode where
  | fast
  | strict
deriving DecidableEq

/-- Model of `app.models.FieldType` (member declaration order preserved). -/
inductive FieldType where
  | string
  | integer
  | float
  | decimal
  | boolean
  | date
  | datetime
  | empty
deriving DecidableEq

/-- Declaration order of `FieldType` members, which is also the iteration
order of the `type_counts` dict created by `FieldStats` (a dict comprehension
over `FieldType` inserts keys in declaration order and `+=` never reorders). -/
def FieldType.enumOrder : List FieldType :=
  [.string, .integer, .float, .decimal, .boolean, .date, .datetime, .empty]

/-- Exceptions raised by the modelled core: the two `HTTPException`s of the
row cap, and the `NameError` that `profile_from_text` raises when strict-mode
profiling sees zero data rows (the bare `idx` in the `total_rows` expression). -/
inductive PyErr where
  | rowLimitExceeded
  | nameErrorIdx
deriving DecidableEq

/-! ## String and numeric parsing primitives -/

/-- ASCII whitespace, the model of what `str.strip()` removes. -/
def isPySpace (c : Char) : Bool :=
  c = ' ' || c = '\t' || c = '\n' || c = '\r' || c = '\x0b' || c = '\x0c'

/-- Model of `str.strip()`. -/
def pyStrip (s : String) : String :=
  ⟨(s.data.dropWhile isPySpace).reverse.dropWhile isPySpace |>.reverse⟩

/-- Model of `str.lower()` (ASCII case folding). -/
def pyLower (s : String) : String :=
  ⟨s.data.map Char.toLower⟩

def isDig (c : Char) : Bool := '0' ≤ c && c ≤ '9'

def digitVal (c : Char) : Nat := c.toNat - 48

/-- Split a leading run of decimal digits off a character list, returning the
digits and the remainder. -/
def splitDigits (cs : List Char) : List Char × List Char :=
  cs.span isDig

/-- Numeric value of a big-endian digit run. -/
def digitsVal (ds : List Char) : Nat :=
  ds.foldl (fun a c => a * 10 + digitVal c) 0

/-- Drop one leading `+`/`-`, reporting whether a `-` was seen. -/
def dropSign (cs : List Char) : Bool × List Char :=
  match cs with
  | '+' :: r => (false, r)
  | '-' :: r => (true, r)
  | r => (false, r)

/-- Model of Python `int(s)`: optional sign followed by one or more digits
(underscore grouping not modelled). -/
def pyIntParse (s : String) : Option Int :=
  let cs := (pyStrip s).data
  let (neg, body) := dropSign cs
  let (ds, rest) := splitDigits body
  if ds ≠ [] ∧ rest = [] then
    some (if neg then -(digitsVal ds : Int) else (digitsVal ds : Int))
  else none

/-- Trailing-exponent part of a decimal literal: empty, or `e`/`E`, an optional
sign and one or more digits.  Returns the exponent when well formed. -/
def parseExpPart (cs : List Char) : Option Int :=
  match cs with
  | [] => some 0
  | e :: r =>
    if e = 'e' ∨ e = 'E' then
      let (neg, body) := dropSign r
      let (ds, rest) := splitDigits body
      if ds ≠ [] ∧ rest = [] then
        some (if neg then -(digitsVal ds : Int) else (digitsVal ds : Int))
      else none
    else none

/-- Parse the digit body of a decimal literal (integer part, optional `.` and
fraction, optional exponent) into an exact rational. -/
def parseDecBody (neg : Bool) (cs : List Char) : Option Rat :=
  let (ip, r1) := splitDigits cs
  let (fp, r2) := match r1 with
    | '.' :: r => splitDigits r
    | _ => ([], r1)
  if ip.length + fp.length = 0 then none
  else match parseExpPart r2 with
    | none => none
    | some e =>
      let mantissa : Rat :=
        ((digitsVal ip * 10 ^ fp.length + digitsVal fp : Nat) : Rat) /
          (((10 ^ fp.length : Nat) : Nat) : Rat)
      let v : Rat :=
        if 0 ≤ e then mantissa * ((10 ^ e.toNat : Nat) : Rat)
        else mantissa / ((10 ^ (-e).toNat : Nat) : Rat)
      some (if neg then -v else v)

/-- Model of `decimal.Decimal(s)` acceptance/value for finite numerals
(`Infinity`/`NaN` forms are outside the model and return `none`). -/
def pyDecimalParse (s : String) : Option Rat :=
  let cs := (pyStrip s).data
  let (neg, body) := dropSign cs
  parseDecBody neg body

/-- Does `Decimal(s)` succeed (finite numerals)? -/
def pyDecimalValid (s : String) : Bool :=
  (pyDecimalParse s).isSome

/-- Model of `float(s)` for finite literals; `inf`/`infinity`/`nan` are valid
Python floats but have no rational value, so the model returns `none` and the
validity test below accepts them. -/
def pyFloatParse (s : String) : Option Rat :=
  let cs := (pyStrip s).data
  let (neg, body) := dropSign cs
  parseDecBody neg body

/-- Does `float(s)` succeed? -/
def pyFloatValid (s : String) : Bool :=
  let t := pyLower (pyStrip s)
  let (_, body) := dropSign t.data
  (pyFloatParse s).isSome || ⟨body⟩ = "inf" || ⟨body⟩ = "infinity" || ⟨body⟩ = "nan"

/-! ## Decimal-separator detection (`detect_decimal_separator`) -/

/-- Match `(?:[.,]\d+)*` against the whole remaining input; `fuel` bounds the
recursion (call with the list length). -/
def sepChunksStar : Nat → List Char → Bool
  | _, [] => true
  | 0, _ => false
  | fuel + 1, c :: rest =>
    (c = '.' || c = ',') &&
      (let p := splitDigits rest
       decide (p.1 ≠ []) && sepChunksStar fuel p.2)

/-- Model of `re.match(r"^[+-]?\d{1,3}(?:[.,]\d+)+$", txt)`. -/
def sepPatternGrouped (cs : List Char) : Bool :=
  let (_, body) := dropSign cs
  let (ds, rest) := splitDigits body
  decide (1 ≤ ds.length ∧ ds.length ≤ 3) && decide (rest ≠ []) &&
    sepChunksStar rest.length rest

/-- Model of `re.match(r"^[+-]?\d+[.,]\d+$", txt)`. -/
def sepPatternSimple (cs : List Char) : Bool :=
  let (_, body) := dropSign cs
  let (ds, rest) := splitDigits body
  decide (ds ≠ []) &&
    (match rest with
     | c :: r =>
       (c = '.' || c = ',') &&
         (let p := splitDigits r
          decide (p.1 ≠ []) && decide (p.2 = []))
     | [] => false)

/-- Model of `profile.detect_decimal_separator`. -/
def detect_decimal_separator (raw : String) : Option Char :=
  let txt := pyStrip raw
  if txt = "" then none
  else if sepPatternGrouped txt.data || sepPatternSimple txt.data then
    some (if ',' ∈ txt.data then ',' else '.')
  else none

/-! ## Dates -/

/-- Days from 1970-01-01 of a proleptic-Gregorian civil date
(Hinnant's `days_from_civil`). -/
def daysFromCivil (y : Int) (m d : Nat) : Int :=
  let y1 : Int := if m ≤ 2 then y - 1 else y
  let era : Int := Int.fdiv y1 400
  let yoe : Int := y1 - era * 400
  let mp : Int := if m > 2 then (m : Int) - 3 else (m : Int) + 9
  let doy : Int := Int.fdiv (153 * mp + 2) 5 + (d : Int) - 1
  let doe : Int := yoe * 365 + Int.fdiv yoe 4 - Int.fdiv yoe 100 + doy
  era * 146097 + doe - 719468

/-- Civil date of a day count from 1970-01-01 (Hinnant's `civil_from_days`). -/
def civilFromDays (z0 : Int) : Int × Nat × Nat :=
  let z := z0 + 719468
  let era := Int.fdiv z 146097
  let doe := z - era * 146097
  let yoe := Int.fdiv (doe - Int.fdiv doe 1460 + Int.fdiv doe 36524 - Int.fdiv doe 146096) 365
  let y := yoe + era * 400
  let doy := doe - (365 * yoe + Int.fdiv yoe 4 - Int.fdiv yoe 100)
  let mp := Int.fdiv (5 * doy + 2) 153
  let d := doy - Int.fdiv (153 * mp + 2) 5 + 1
  let m := if mp < 10 then mp + 3 else mp - 9
  ((if m ≤ 2 then y + 1 else y), m.toNat, d.toNat)

def isLeapYear (y : Int) : Bool :=
  (Int.emod y 4 = 0 && Int.emod y 100 ≠ 0) || Int.emod y 400 = 0

def daysInMonth (y : Int) (m : Nat) : Nat :=
  if m = 2 then (if isLeapYear y then 29 else 28)
  else if m = 4 ∨ m = 6 ∨ m = 9 ∨ m = 11 then 30
  else 31

def validDate (y : Int) (m d : Nat) : Bool :=
  decide (1 ≤ y) && decide (y ≤ 9999) && decide (1 ≤ m) && decide (m ≤ 12) &&
    decide (1 ≤ d) && decide (d ≤ daysInMonth y m)

def validTime (h mi s : Nat) : Bool :=
  decide (h < 24) && decide (mi < 60) && decide (s < 60)

/-- Seconds since epoch of a civil datetime. -/
def mkDateTime (y : Int) (m d h mi s : Nat) : Int :=
  daysFromCivil y m d * 86400 + (h * 3600 + mi * 60 + s : Nat)

/-- Take a run of 1 or 2 digits (the model of strptime's `%m`-style fields,
whose regexes never match longer runs). -/
def take2Digits (cs : List Char) : Option (Nat × List Char) :=
  let (ds, rest) := splitDigits cs
  if 1 ≤ ds.length ∧ ds.length ≤ 2 then some (digitsVal ds, rest) else none

/-- Take exactly 4 digits (strptime `%Y`). -/
def take4Digits (cs : List Char) : Option (Nat × List Char) :=
  let (ds, rest) := splitDigits cs
  if ds.length = 4 then some (digitsVal ds, rest) else none

def expectChar (c : Char) (cs : List Char) : Option (List Char) :=
  match cs with
  | x :: r => if x = c then some r else none
  | [] => none

/-- Parse `HH:MM:SS` (each 1-2 digits) to seconds of day. -/
def parseHMS (cs : List Char) : Option (Nat × List Char) := do
  let (h, r1) ← take2Digits cs
  let r2 ← expectChar ':' r1
  let (mi, r3) ← take2Digits r2
  let r4 ← expectChar ':' r3
  let (s, r5) ← take2Digits r4
  if validTime h mi s then some (h * 3600 + mi * 60 + s, r5) else none

/-- Parse a `%Y<sep>%m<sep>%d` prefix. -/
def parseYMD (sep : Char) (cs : List Char) : Option (Int × Nat × Nat × List Char) := do
  let (y, r1) ← take4Digits cs
  let r2 ← expectChar sep r1
  let (m, r3) ← take2Digits r2
  let r4 ← expectChar sep r3
  let (d, r5) ← take2Digits r4
  if validDate (y : Int) m d then some ((y : Int), m, d, r5) else none

/-- Parse a `%d/%m/%Y` or `%m/%d/%Y` prefix (first two components swapped by
the `dayFirst` flag). -/
def parseDMY (dayFirst : Bool) (cs : List Char) : Option (Int × Nat × Nat × List Char) := do
  let (a, r1) ← take2Digits cs
  let r2 ← expectChar '/' r1
  let (b, r3) ← take2Digits r2
  let r4 ← expectChar '/' r3
  let (y, r5) ← take4Digits r4
  let (d, m) := if dayFirst then (a, b) else (b, a)
  if validDate (y : Int) m d then some ((y : Int), m, d, r5) else none

/-- One strptime attempt: date part, optional time separated by `tsep`. -/
def tryFormat (datePart : List Char → Option (Int × Nat × Nat × List Char))
    (tsep : Option Char) (cs : List Char) : Option Int := do
  let (y, m, d, rest) ← datePart cs
  match tsep with
  | none => if rest = [] then some (mkDateTime y m d 0 0 0) else none
  | some c => do
    let r1 ← expectChar c rest
    let (tod, r2) ← parseHMS r1
    if r2 = [] then some (daysFromCivil y m d * 86400 + (tod : Int)) else none

/-- Model of `profile.parse_datetime`: the fixed strptime format list, then an
ISO-8601 fallback (modelled for the dashed `YYYY-MM-DD[( |T)HH:MM[:SS]]`
subset of `datetime.fromisoformat`). -/
def parse_datetime (raw : String) : Option Int :=
  let txt := pyStrip raw
  if txt = "" then none
  else
    let cs := txt.data
    match tryFormat (parseYMD '-') (some 'T') cs with
    | some v => some v
    | none =>
    match tryFormat (parseYMD '-') (some ' ') cs with
    | some v => some v
    | none =>
    match tryFormat (parseYMD '-') none cs with
    | some v => some v
    | none =>
    match tryFormat (parseYMD '/') none cs with
    | some v => some v
    | none =>
    match tryFormat (parseDMY true) none cs with
    | some v => some v
    | none =>
    match tryFormat (parseDMY false) none cs with
    | some v => some v
    | none => isoFallback cs
where
  /-- Model of the `datetime.fromisoformat` fallback on the dashed subset. -/
  isoFallback (cs : List Char) : Option Int := do
    let (y, m, d, rest) ← parseYMD '-' cs
    match rest with
    | [] => some (mkDateTime y m d 0 0 0)
    | c :: r1 =>
      if c = 'T' ∨ c = ' ' then do
        let (h, r2) ← take2Digits r1
        let r3 ← expectChar ':' r2
        let (mi, r4) ← take2Digits r3
        let (s, r5) ← (match expectChar ':' r4 with
          | some r5a => (take2Digits r5a).map (fun p => (p.1, p.2))
          | none => some (0, r4))
        if validTime h mi s ∧ r5 = [] then
          some (daysFromCivil y m d * 86400 + ((h * 3600 + mi * 60 + s : Nat) : Int))
        else none
      else none

/-! ## Type classification (`detect_type`) and numeric normalisation -/

/-- Model of `profile.detect_type`: the classification chain of the source
(boolean literals, datetime formats, integer, locale-aware decimal, plain
decimal, float, string). -/
def detect_type (raw : String) : FieldType :=
  if raw = "" then .empty
  else
    let lower := pyLower (pyStrip raw)
    if lower ∈ ["true", "false", "1", "0", "yes", "no"] then .boolean
    else match parse_datetime raw with
    | some dt => if Int.emod dt 86400 ≠ 0 then .datetime else .date
    | none =>
      if (pyIntParse lower).isSome then .integer
      else
        let viaSep : Bool :=
          match detect_decimal_separator raw with
          | some sep =>
            let normalized := pyStrip raw
            let normalized :=
              if sep = ',' then
                ⟨(normalized.data.filter (fun c => c ≠ '.')).map
                  (fun c => if c = ',' then '.' else c)⟩
              else ⟨normalized.data.filter (fun c => c ≠ ',')⟩
            pyDecimalValid normalized
          | none => false
        if viaSep then .decimal
        else if pyDecimalValid lower ∧
            (('.' ∈ lower.data) ∨ ('e' ∈ lower.data) ∨ ('E' ∈ lower.data) ∨ (',' ∈ lower.data)) then
          .decimal
        else if pyFloatValid lower then .float
        else .string

/-- Model of `profile.normalize_numeric`. -/
def normalize_numeric (raw : String) : Option Rat :=
  let txt := pyStrip raw
  if txt = "" then none
  else
    let candidate : String :=
      match detect_decimal_separator txt with
      | some sep =>
        if sep = ',' then
          ⟨(txt.data.filter (fun c => c ≠ '.')).map (fun c => if c = ',' then '.' else c)⟩
        else ⟨txt.data.filter (fun c => c ≠ ',')⟩
      | none => txt
    match pyFloatParse candidate with
    | some v => some v
    | none => pyFloatParse txt

/-! ## Per-column statistics (`FieldStats`) -/

/-- Model of `profile.FieldStats` (the `allowed_values` set is kept as its
insertion-ordered list of distinct members; finalisation sorts it, matching
`sorted(list(set))`). -/
structure FieldStats where
  name : String
  counts : FieldType → Nat
  max_len : Nat
  min_len : Option Nat
  min_val : Option Rat
  max_val : Option Rat
  allowed : List String
  nulls : Nat
  min_date : Option Int
  max_date : Option Int

/-- Fresh accumulator for one column. -/
def FieldStats.init (h : String) : FieldStats :=
  { name := h, counts := fun _ => 0, max_len := 0, min_len := none,
    min_val := none, max_val := none, allowed := [], nulls := 0,
    min_date := none, max_date := none }

/-- The bounded-set step of `register`: add `v` only while the set holds fewer
than 50 members. -/
def allowedAdd (l : List String) (v : String) : List String :=
  if l.length < 50 ∧ v ∉ l then l ++ [v] else l

/-- Model of `FieldStats.register`. -/
def FieldStats.register (st : FieldStats) (value : String) (t : FieldType) : FieldStats :=
  let st1 : FieldStats :=
    { st with counts := fun x => if x = t then st.counts x + 1 else st.counts x }
  if value = "" then { st1 with nulls := st1.nulls + 1 }
  else
    let st2 : FieldStats :=
      { st1 with
        max_len := max st1.max_len value.length
        min_len := some (match st1.min_len with
          | none => value.length
          | some m => min m value.length) }
    let st3 : FieldStats :=
      if t = .integer ∨ t = .float ∨ t = .decimal then
        match normalize_numeric value with
        | some q =>
          { st2 with
            min_val := some (match st2.min_val with | none => q | some a => min a q)
            max_val := some (match st2.max_val with | none => q | some b => max b q) }
        | none => st2
      else st2
    let st4 : FieldStats :=
      if t = .date ∨ t = .datetime then
        match parse_datetime value with
        | some dt =>
          { st3 with
            min_date := some (match st3.min_date with | none => dt | some a => min a dt)
            max_date := some (match st3.max_date with | none => dt | some b => max b dt) }
        | none => st3
      else st3
    { st4 with allowed := allowedAdd st4.allowed value }

/-- Model of `profile.pick_final_type`: filter the declaration-ordered counts
down to observed non-empty types and take the head of the stable
descending-by-count sort, i.e. the first type attaining the maximal count. -/
def pick_final_type (counts : FieldType → Nat) : FieldType :=
  match FieldType.enumOrder.filter (fun t => decide (counts t > 0) && decide (t ≠ .empty)) with
  | [] => .empty
  | h :: t => t.foldl (fun best x => if counts x > counts best then x else best) h

/-! ## Profile data model -/

/-- Model of `app.models.FieldConstraint`.  `date_min`/`date_max` hold the
datetime values whose ISO rendering the source stores (the rendering is an
order embedding, so bound comparisons coincide). -/
structure FieldConstraint where
  name : String
  type : FieldType
  nullable : Bool
  min_length : Option Nat
  max_length : Option Nat
  min_value : Option Rat
  max_value : Option Rat
  allowed_values : Option (List String)
  null_fraction : Rat
  date_min : Option Int
  date_max : Option Int
deriving DecidableEq

/-- Model of `app.models.ProfileResult`. -/
structure ProfileResult where
  row_count : Nat
  fields : List FieldConstraint
  encoding : String
  delimiter : String
  decimal_separator : String
deriving DecidableEq

/-! ## The profiling loop (`profile_from_text`) -/

/-- Code-point lexicographic comparison of character lists (the ordering of
Python `sorted` on `str`). -/
def charListLt : List Char → List Char → Bool
  | [], [] => false
  | [], _ :: _ => true
  | _ :: _, [] => false
  | a :: as, b :: bs => if a < b then true else if b < a then false else charListLt as bs

/-- Code-point lexicographic comparison of strings. -/
def strLtB (a b : String) : Bool :=
  charListLt a.data b.data

/-- Insertion sort step for `sorted(list(set))`. -/
def insertSorted (v : String) : List String → List String
  | [] => [v]
  | x :: xs => if strLtB v x then v :: x :: xs else x :: insertSorted v xs

/-- Model of Python `sorted` on strings (code-point lexicographic). -/
def sortStrings : List String → List String
  | [] => []
  | x :: xs => insertSorted x (sortStrings xs)

/-- The set of decimal separators observed so far. -/
structure SepSeen where
  dot : Bool
  comma : Bool
deriving DecidableEq

def SepSeen.add (s : SepSeen) : Option Char → SepSeen
  | some '.' => { s with dot := true }
  | some ',' => { s with comma := true }
  | _ => s

/-- Register every cell of one record into the per-column accumulators
(`row.get(header, "") or ""` reads positionally; missing cells are `""`). -/
def registerRow (row : List String) : Nat → List FieldStats → List FieldStats
  | _, [] => []
  | j, st :: rest =>
    let raw := row.getD j ""
    st.register raw (detect_type raw) :: registerRow row (j + 1) rest

/-- Collect the decimal separators detected in one record's cells. -/
def sepsCells (row : List String) : Nat → List String → SepSeen → SepSeen
  | _, [], s => s
  | j, _ :: hs, s =>
    sepsCells row (j + 1) hs (s.add (detect_decimal_separator (row.getD j "")))

/-- One iteration body of the row loop. -/
def stepRow (hs : List String) (row : List String)
    (acc : List FieldStats × SepSeen) : List FieldStats × SepSeen :=
  (registerRow row 0 acc.1, sepsCells row 0 hs acc.2)

/-- Model of the `for idx, row in enumerate(reader, start=1)` loop: the hard
row cap is checked first, then the fast-mode sample break, then the row is
processed.  Returns the final value of `idx` and the accumulators. -/
def profLoop (m : ParseMode) (hs : List String) :
    Nat → List (List String) → List FieldStats × SepSeen →
    Except PyErr (Nat × List FieldStats × SepSeen)
  | idx, [], acc => .ok (idx, acc)
  | idx, row :: rest, acc =>
    let i := idx + 1
    if i > MAX_ROWS then .error .rowLimitExceeded
    else if m = ParseMode.fast ∧ i > FAST_SAMPLE_ROWS then .ok (i, acc)
    else profLoop m hs i rest (stepRow hs row acc)

/-- Model of `total_rows = min(idx if 'idx' in locals() else 0, sample_limit or idx)`:
in strict mode `sample_limit` is `None`, so the second operand evaluates the
bare `idx`, which is unbound when no row was read — a `NameError`. -/
def totalRowsOf (m : ParseMode) (lastIdx : Nat) : Except PyErr Nat :=
  match m with
  | .fast => .ok (min lastIdx FAST_SAMPLE_ROWS)
  | .strict => if lastIdx = 0 then .error .nameErrorIdx else .ok lastIdx

/-- Freeze one column's accumulator into a `FieldConstraint`
(the constraint-building block of `profile_from_text`). -/
def finalizeField (totalRows : Nat) (st : FieldStats) : FieldConstraint :=
  { name := st.name
    type := pick_final_type st.counts
    nullable := st.nulls > 0
    min_length := st.min_len
    max_length := some st.max_len
    min_value := st.min_val
    max_value := st.max_val
    allowed_values :=
      if st.allowed ≠ [] ∧ st.allowed.length ≤ 50 then some (sortStrings st.allowed) else none
    null_fraction := if totalRows ≠ 0 then (st.nulls : Rat) / (totalRows : Rat) else 0
    date_min := st.min_date
    date_max := st.max_date }

/-- Model of `profile.profile_from_text`, taken after CSV parsing: `hs` are
`reader.fieldnames`, `rows` the data records, and the resolved delimiter and
encoding are passed through as the source stores them in the result. -/
def profileFromRows (m : ParseMode) (hs : List String) (rows : List (List String))
    (delim enc : String) : Except PyErr ProfileResult := do
  let (lastIdx, stats, seps) ← profLoop m hs 0 rows (hs.map FieldStats.init, ⟨false, false⟩)
  let total ← totalRowsOf m lastIdx
  let constraints := stats.map (finalizeField total)
  let dsep := if seps.comma ∧ ¬ seps.dot then "," else "."
  .ok { row_count := total, fields := constraints, encoding := enc,
        delimiter := delim, decimal_separator := dsep }

/-! ## Random stream model -/

/-- Explicit model of the process-wide `random` generator: a stream of raw
naturals and a cursor.  Every library draw consumes one raw value. -/
structure RandState where
  gen : Nat → Nat
  i : Nat

/-- Consume one raw value. -/
def RandState.next (σ : RandState) : Nat × RandState :=
  (σ.gen σ.i, ⟨σ.gen, σ.i + 1⟩)

/-- Model of `random.seed(s)`: the stream becomes a fixed pure function of the
seed (stand-in for re-initialising the Mersenne Twister). -/
def seedState (s : Int) : RandState :=
  ⟨fun n => ((s.natAbs + 1) * 2654435761 + n * 40503) % 4294967296, 0⟩

/-- Model of `random.random()`: a rational in `[0, 1)`. -/
def pyRandom (σ : RandState) : Rat × RandState :=
  let (k, σ1) := σ.next
  (((k % 1000000 : Nat) : Rat) / 1000000, σ1)

/-- Model of `random.randint(a, b)` for `a ≤ b` (Python raises on an empty
range; the model is total and returns `a` there, a case no caller relies on). -/
def pyRandint (a b : Int) (σ : RandState) : Int × RandState :=
  let (k, σ1) := σ.next
  (if a ≤ b then a + ((k % (b - a + 1).toNat : Nat) : Int) else a, σ1)

/-- Model of `random.choice(seq)` for nonempty `seq`. -/
def pyChoice {α : Type} (l : List α) (dflt : α) (σ : RandState) : α × RandState :=
  let (k, σ1) := σ.next
  (l.getD (k % l.length) dflt, σ1)

/-- Model of `random.uniform(a, b) = a + (b - a) * random()`. -/
def pyUniform (a b : Rat) (σ : RandState) : Rat × RandState :=
  let (r, σ1) := pyRandom σ
  (a + (b - a) * r, σ1)

/-! ## Rendering helpers (`synth`) -/

/-- Round to the nearest integer, ties to the even integer
(`decimal.ROUND_HALF_EVEN`, also the tie rule of `format(x, ".3f")`). -/
def roundHalfEven (x : Rat) : Int :=
  let f := Int.floor x
  let r := x - (f : Rat)
  if r < 1 / 2 then f
  else if 1 / 2 < r then f + 1
  else if Int.emod f 2 = 0 then f else f + 1

/-- Quantise to 3 fractional digits (`Decimal.quantize(Decimal("0.001"))`). -/
def quantize3 (x : Rat) : Rat :=
  ((roundHalfEven (x * 1000) : Int) : Rat) / 1000

/-- Zero-padded decimal rendering of a natural (width 2/3/4 below). -/
def padNat (width n : Nat) : String :=
  let d := Nat.repr n
  ⟨List.replicate (width - d.length) '0'⟩ ++ d

/-- Fixed-point rendering with exactly 3 fractional digits of a multiple of
1/1000 (`format(candidate.quantize(Decimal("0.001")), "f")` and `f"{x:.3f}"`). -/
def formatFixed3 (x : Rat) : String :=
  let t : Int := roundHalfEven (x * 1000)
  (if t < 0 then "-" else "") ++ Nat.repr (t.natAbs / 1000) ++ "." ++ padNat 3 (t.natAbs % 1000)

/-- Per-value decimal-separator substitution:
`out.replace(".", decimal_sep) if decimal_sep == "," else out`. -/
def sepSwap (decimalSep : String) (s : String) : String :=
  if decimalSep = "," then ⟨s.data.map (fun c => if c = '.' then ',' else c)⟩ else s

/-- ISO calendar-date rendering of a day count (`date.isoformat()`). -/
def isoDate (days : Int) : String :=
  let (y, m, d) := civilFromDays days
  padNat 4 y.toNat ++ "-" ++ padNat 2 m ++ "-" ++ padNat 2 d

/-- ISO datetime rendering at second precision
(`datetime.isoformat(sep="T", timespec="seconds")`). -/
def isoDateTime (secs : Int) : String :=
  let days := Int.fdiv secs 86400
  let tod := (Int.emod secs 86400).toNat
  isoDate days ++ "T" ++ padNat 2 (tod / 3600) ++ ":" ++ padNat 2 (tod % 3600 / 60) ++
    ":" ++ padNat 2 (tod % 60)

/-! ## Value generation (`synth._generate_value`) -/

/-- Model of `synth._null_probability`. -/
def nullProbability (c : FieldConstraint) : Rat :=
  min (max c.null_fraction 0) (9 / 10)

/-- Model of `synth._parsed_allowed_numbers(allowed, cast)`: `None`/empty gives
`[]`, parse failures are skipped. -/
def parsedAllowedNumbers {α : Type} (cast : String → Option α)
    (allowed : Option (List String)) : List α :=
  (allowed.getD []).filterMap cast

/-- Alphabet of `_scrambled_token`
(`string.ascii_letters + string.digits + "_-+=@#%&$!*"`, 73 characters). -/
def tokenAlphabet : List Char :=
  ("abcdefghijklmnopqrstuvwxyzABCDEFGHIJKLMNOPQRSTUVWXYZ0123456789" ++ "_-+=@#%&$!*").data

/-- One `random.choices` pick: `population[floor(random() * len(population))]`. -/
def pyChoicesOne (l : List Char) (σ : RandState) : Char × RandState :=
  let (r, σ1) := pyRandom σ
  (l.getD (Int.toNat (Rat.floor (r * (l.length : Rat)))) 'a', σ1)

/-- `k` successive `random.choices` picks. -/
def drawChars (l : List Char) : Nat → RandState → List Char × RandState
  | 0, σ => ([], σ)
  | k + 1, σ =>
    let (c, σ1) := pyChoicesOne l σ
    let (cs, σ2) := drawChars l k σ1
    (c :: cs, σ2)

/-- Model of `synth._scrambled_token`. -/
def scrambledToken (minLen maxLen : Nat) (σ : RandState) : String × RandState :=
  let m := max 1 minLen
  let M := max m maxLen
  let (len, σ1) := pyRandint (m : Int) (M : Int) σ
  let (cs, σ2) := drawChars tokenAlphabet len.toNat σ1
  (⟨cs⟩, σ2)

/-- Python `or` on an optional length: `None` and `0` both fall through. -/
def pyOrNat (o : Option Nat) (dflt : Nat) : Nat :=
  match o with
  | some n => if n = 0 then dflt else n
  | none => dflt

/-- Python `int(x)` on a float: truncation toward zero. -/
def pyTrunc (q : Rat) : Int :=
  Int.tdiv q.num (q.den : Int)

/-- The lower bound resolved by the decimal branch
(`Decimal(str(min_value)) if ... else Decimal("0")`). -/
def decimalLow (c : FieldConstraint) : Rat :=
  c.min_value.getD 0

/-- The upper bound resolved by the decimal branch before widening
(`Decimal(str(max_value)) if ... else Decimal("1000")`). -/
def decimalHigh (c : FieldConstraint) : Rat :=
  c.max_value.getD 1000

/-- The decimal upper bound after the equal-bounds widening (`high = low + 1`). -/
def decimalHighW (c : FieldConstraint) : Rat :=
  if decimalLow c = decimalHigh c then decimalLow c + 1 else decimalHigh c

/-- The typed body of `_generate_value`, after the null check (the source's
sequential `if constraint.type == ...` dispatch). -/
def genBody (c : FieldConstraint) (decimalSep : String) (σ : RandState) (now : Int) :
    String × RandState :=
  if c.type = FieldType.boolean then pyChoice ["true", "false"] "true" σ
  else if c.type = FieldType.integer then
    let allowedInts := parsedAllowedNumbers pyIntParse c.allowed_values
    let low : Int := match c.min_value with | some q => pyTrunc q | none => 0
    let high : Int := match c.max_value with | some q => pyTrunc q | none => max (low + 1) 1000
    let high : Int := if low = high then low + 10 else high
    if allowedInts ≠ [] then
      let (choice, σ1) := pyChoice allowedInts 0 σ
      let (jitter, σ2) := pyRandint (-5) 5 σ1
      (toString (max low (min high (choice + jitter))), σ2)
    else
      let (n, σ1) := pyRandint low high σ
      (toString n, σ1)
  else if c.type = FieldType.float then
    let allowedFloats := parsedAllowedNumbers pyFloatParse c.allowed_values
    let low : Rat := c.min_value.getD 0
    let high : Rat := c.max_value.getD (max (low + 1) 1000)
    let high : Rat := if low = high then low + 1 else high
    if allowedFloats ≠ [] then
      let (choice, σ1) := pyChoice allowedFloats 0 σ
      let span : Rat := max (1 / 10) ((high - low) * (1 / 20))
      let (off, σ2) := pyUniform (-span) span σ1
      (sepSwap decimalSep (formatFixed3 (max low (min high (choice + off)))), σ2)
    else
      let (x, σ1) := pyUniform low high σ
      (sepSwap decimalSep (formatFixed3 x), σ1)
  else if c.type = FieldType.decimal then
    let allowedDecimals := parsedAllowedNumbers pyDecimalParse c.allowed_values
    let low := decimalLow c
    let high := decimalHighW c
    if allowedDecimals ≠ [] then
      let (choice, σ1) := pyChoice allowedDecimals 0 σ
      let span : Rat := (high - low) * (1 / 20)
      let (u, σ2) := pyUniform (-span) span σ1
      (sepSwap decimalSep (formatFixed3 (quantize3 (min high (max low (choice + u))))), σ2)
    else
      let (r, σ1) := pyRandom σ
      (sepSwap decimalSep (formatFixed3 (quantize3 (low + (high - low) * r))), σ1)
  else if c.type = FieldType.date ∨ c.type = FieldType.datetime then
    let start := c.date_min.getD (now - 365 * 86400)
    let stop := c.date_max.getD now
    let stop := if start ≥ stop then start + 86400 else stop
    let (off, σ1) := pyRandint 0 (max 1 (stop - start)) σ
    if c.type = FieldType.date then (isoDate (Int.fdiv (start + off) 86400), σ1)
    else (isoDateTime (start + off), σ1)
  else
    match c.allowed_values with
    | some (v :: vs) =>
      let (cand, σ1) := pyChoice (v :: vs) "" σ
      let minLen := pyOrNat c.min_length (max 1 cand.length)
      let maxLen := pyOrNat c.max_length (max minLen (cand.length + 8))
      scrambledToken minLen maxLen σ1
    | _ =>
      let minLen := pyOrNat c.min_length 8
      let maxLen := pyOrNat c.max_length (max (minLen + 8) 24)
      let maxLen := if maxLen < minLen then minLen else maxLen
      scrambledToken minLen maxLen σ

/-- Model of `synth._generate_value`: the null draw happens first and always
consumes one `random()` value, then the type dispatch. -/
def generateValue (c : FieldConstraint) (decimalSep : String) (σ : RandState)
    (now : Int) : String × RandState :=
  let (q, σ1) := pyRandom σ
  if q < nullProbability c ∧ c.nullable = true then ("", σ1)
  else genBody c decimalSep σ1 now

/-! ## Row generation and CSV serialisation (`synth`) -/

/-- Generate one record, field order preserved, drawing from the shared stream. -/
def genRow (fields : List FieldConstraint) (decimalSep : String) (now : Int) :
    RandState → List String × RandState
  | σ =>
    match fields with
    | [] => ([], σ)
    | c :: rest =>
      let (v, σ1) := generateValue c decimalSep σ now
      let (vs, σ2) := genRow rest decimalSep now σ1
      (v :: vs, σ2)

/-- Generate `n` records in row-major order. -/
def genRowsAux (fields : List FieldConstraint) (decimalSep : String) (now : Int) :
    Nat → RandState → List (List String) × RandState
  | 0, σ => ([], σ)
  | n + 1, σ =>
    let (r, σ1) := genRow fields decimalSep now σ
    let (rs, σ2) := genRowsAux fields decimalSep now n σ1
    (r :: rs, σ2)

/-- Model of `synth.generate_rows`: the row cap is checked before anything is
generated; a supplied seed re-initialises the stream, otherwise the ambient
stream `σ0` is consumed. -/
def generateRows (p : ProfileResult) (rows : Nat) (seed : Option Int)
    (σ0 : RandState) (now : Int) : Except PyErr (List (List String)) :=
  if rows > MAX_ROWS then .error .rowLimitExceeded
  else
    let σ := match seed with | some s => seedState s | none => σ0
    let decimalSep := if p.decimal_separator = "" then "." else p.decimal_separator
    .ok (genRowsAux p.fields decimalSep now rows σ).1

/-- CSV field quoting (`csv.writer`, `QUOTE_MINIMAL`). -/
def csvField (delim : String) (s : String) : String :=
  if s.data.any (fun c => c ∈ delim.data ∨ c = '"' ∨ c = '\r' ∨ c = '\n') then
    "\"" ++ ⟨s.data.flatMap (fun c => if c = '"' then ['"', '"'] else [c])⟩ ++ "\""
  else s

/-- One CSV record (`csv.writer.writerow`, default `\r\n` terminator). -/
def csvRow (delim : String) (fs : List String) : String :=
  String.intercalate delim (fs.map (csvField delim)) ++ "\r\n"

/-- Global `.` substitution applied to the serialised text when the resolved
separator is not `.` (`data.replace(".", dec_sep)`). -/
def dotReplaceAll (repl : String) (s : String) : String :=
  ⟨s.data.flatMap (fun c => if c = '.' then repl.data else [c])⟩

/-- Model of `synth.profile_to_csv` up to the byte encoding: the serialised
text.  `dec_sep = decimal_separator or getattr(profile, "decimal_separator", ".") or "."`. -/
def profileToCsv (p : ProfileResult) (rows : Nat) (seed : Option Int)
    (decimalSeparator : Option String) (σ0 : RandState) (now : Int) :
    Except PyErr String :=
  let decSep :=
    if decimalSeparator.getD "" ≠ "" then decimalSeparator.getD ""
    else if p.decimal_separator ≠ "" then p.decimal_separator
    else "."
  match generateRows p rows seed σ0 now with
  | .error e => .error e
  | .ok rs =>
    let txt := csvRow p.delimiter (p.fields.map (fun c => c.name)) ++
      String.join (rs.map (csvRow p.delimiter))
    .ok (if decSep ≠ "." then dotReplaceAll decSep txt else txt)

/-- UTF-8 encoding of one scalar value. -/
def utf8Char (c : Char) : List Nat :=
  let n := c.toNat
  if n < 128 then [n]
  else if n < 2048 then [192 + n / 64, 128 + n % 64]
  else if n < 65536 then [224 + n / 4096, 128 + n / 64 % 64, 128 + n % 64]
  else [240 + n / 262144, 128 + n / 4096 % 64, 128 + n / 64 % 64, 128 + n % 64]

/-- UTF-8 byte sequence of a string (the model of `str.encode`; for the
single-byte encodings the source may record instead, equality of texts still
determines equality of payloads, which is all the claims need). -/
def utf8Encode (s : String) : List Nat :=
  s.data.flatMap utf8Char

/-- The byte payload returned by `profile_to_csv`. -/
def profileToCsvBytes (p : ProfileResult) (rows : Nat) (seed : Option Int)
    (decimalSeparator : Option String) (σ0 : RandState) (now : Int) :
    Except PyErr (List Nat) :=
  (profileToCsv p rows seed decimalSeparator σ0 now).map utf8Encode

/-! ## Auxiliary definitions used by the claim statements -/

/-- Did a call succeed? -/
def exceptIsOk {ε α : Type} : Except ε α → Bool
  | .ok _ => true
  | .error _ => false

/-- Was separator `ch` detected in some cell of `row` at header positions
`j, j+1, ...` (one per remaining header)?  Mirrors the shape of `sepsCells`. -/
def sawInRow (ch : Char) (row : List String) : Nat → List String → Bool
  | _, [] => false
  | j, _ :: hs =>
    (detect_decimal_separator (row.getD j "") = some ch : Bool) || sawInRow ch row (j + 1) hs

/-- Was separator `ch` detected in some cell of some record? -/
def sawSep (ch : Char) (hs : List String) (rows : List (List String)) : Bool :=
  rows.any (fun r => sawInRow ch r 0 hs)

/-- The records the profiling loop actually examines: all of them in strict
mode, the first `FAST_SAMPLE_ROWS` in fast mode. -/
def examinedRows (m : ParseMode) (rows : List (List String)) : List (List String) :=
  match m with
  | .fast => rows.take FAST_SAMPLE_ROWS
  | .strict => rows

/-- Register a whole column of (value, detected type) cells. -/
def registerAll (h : String) (cells : List (String × FieldType)) : FieldStats :=
  cells.foldl (fun st p => st.register p.1 p.2) (FieldStats.init h)

/-- The bounded-set fold on its own (empty cells never reach the set, matching
the early return of `register`). -/
def allowedAddAll (l : List String) (vs : List String) : List String :=
  vs.foldl (fun a v => if v = "" then a else allowedAdd a v) l

/-- Apply a Boolean check to the payload of a successful call. -/
def exceptCheck {ε α : Type} (f : α → Bool) : Except ε α → Bool
  | .ok a => f a
  | .error _ => false

/-- Distinct non-empty values in order of first occurrence. -/
def firstDistinctNonEmpty (vs : List String) : List String :=
  vs.foldl (fun acc v => if v = "" ∨ v ∈ acc then acc else acc ++ [v]) []

/-- The detected types of column `j` over the given records. -/
def columnTypes (rows : List (List String)) (j : Nat) : List FieldType :=
  rows.map (fun r => detect_type (r.getD j ""))

/-! ## Spec-modelled comparison definitions -/

/-- Modelled from the spec: final-type selection with ties "broken by the
order in which competing types were first observed while scanning the column
(first-seen priority)"; `scanned` is the column's detected-type sequence.
Missing from the source, which sorts the declaration-ordered counts dict. -/
def specFirstSeenType (scanned : List FieldType) : FieldType :=
  let nonEmpty := scanned.filter (fun t => t ≠ FieldType.empty)
  let order := nonEmpty.foldl (fun acc t => if t ∈ acc then acc else acc ++ [t]) []
  let cnt : FieldType → Nat := fun t => (nonEmpty.filter (fun x => x = t)).length
  match order with
  | [] => .empty
  | h :: t => t.foldl (fun best x => if cnt x > cnt best then x else best) h

/-- Modelled from the spec: the decimal branch of `_generate_value` under the
claimed "same bound/jitter policy as float", i.e. with the upper bound
defaulting to `max(low + 1, 1000)` instead of the source's flat `1000`
(everything else as in the source's decimal branch). -/
def specDecimalGenerate (c : FieldConstraint) (decimalSep : String) (σ : RandState) :
    String × RandState :=
  let (q, σ1) := pyRandom σ
  if q < nullProbability c ∧ c.nullable = true then ("", σ1)
  else
    let allowedDecimals := parsedAllowedNumbers pyDecimalParse c.allowed_values
    let low : Rat := c.min_value.getD 0
    let high : Rat := c.max_value.getD (max (low + 1) 1000)
    let high : Rat := if low = high then low + 1 else high
    if allowedDecimals ≠ [] then
      let (choice, σ2) := pyChoice allowedDecimals 0 σ1
      let span : Rat := (high - low) * (1 / 20)
      let (u, σ3) := pyUniform (-span) span σ2
      (sepSwap decimalSep (formatFixed3 (quantize3 (min high (max low (choice + u))))), σ3)
    else
      let (r, σ2) := pyRandom σ1
      (sepSwap decimalSep (formatFixed3 (quantize3 (low + (high - low) * r))), σ2)

/-- Decidable equality for call results. -/
instance {ε α : Type} [DecidableEq ε] [DecidableEq α] : DecidableEq (Except ε α) :=
  fun x y =>
    match x, y with
    | .ok a, .ok b =>
      if h : a = b then isTrue (by rw [h]) else isFalse (fun hh => h (by injection hh))
    | .error a, .error b =>
      if h : a = b then isTrue (by rw [h]) else isFalse (fun hh => h (by injection hh))
    | .ok _, .error _ => isFalse (fun hh => Except.noConfusion hh)
    | .error _, .ok _ => isFalse (fun hh => Except.noConfusion hh)

/-- The ordering invariants of one column accumulator: numeric, length and
date bounds are consistent. -/
def StatsInv (st : FieldStats) : Prop :=
  (st.min_val.isSome ↔ st.max_val.isSome) ∧
  (∀ a b, st.min_val = some a → st.max_val = some b → a ≤ b) ∧
  (∀ n, st.min_len = some n → n ≤ st.max_len) ∧
  (st.min_date.isSome ↔ st.max_date.isSome) ∧
  (∀ a b, st.min_date = some a → st.max_date = some b → a ≤ b)

/-- A blank random stream (all raw draws 0), used as a concrete witness. -/
def streamZero : RandState := ⟨fun _ => 0, 0⟩

/-- A stream whose second raw draw makes `random.random()` return 1/2. -/
def streamHalf : RandState := ⟨fun n => n * 500000, 0⟩

/-- A decimal-typed constraint with only a lower bound of 2000. -/
def conDecimalMinOnly : FieldConstraint :=
  { name := "amount", type := .decimal, nullable := false, min_length := none,
    max_length := none, min_value := some 2000, max_value := none,
    allowed_values := none, null_fraction := 0, date_min := none, date_max := none }

/-- A date-typed constraint with no date bounds (valid per the data model). -/
def conDateUnbounded : FieldConstraint :=
  { name := "d", type := .date, nullable := false, min_length := none,
    max_length := none, min_value := none, max_value := none,
    allowed_values := none, null_fraction := 0, date_min := none, date_max := none }

/-- A one-column profile around `conDateUnbounded`. -/
def profileDateUnbounded : ProfileResult :=
  { row_count := 1, fields := [conDateUnbounded], encoding := "utf-8",
    delimiter := ",", decimal_separator := "." }

/-- The bounded integer constraint of the claim: bounds [10, 20] and
`allowed_values = ["11", "15", "19"]`. -/
def conIntBounded : FieldConstraint :=
  { name := "score", type := .integer, nullable := false, min_length := none,
    max_length := none, min_value := some 10, max_value := some 20,
    allowed_values := some ["11", "15", "19"], null_fraction := 0,
    date_min := none, date_max := none }

/-- The two-field profile of the synthesis tests (a nullable string column and
a bounded integer column; no date fields). -/
def profileBasic : ProfileResult :=
  { row_count := 2,
    fields := [
      { name := "name", type := .string, nullable := true, min_length := some 3,
        max_length := some 5, min_value := none, max_value := none,
        allowed_values := none, null_fraction := 4 / 5, date_min := none,
        date_max := none },
      { name := "age", type := .integer, nullable := false, min_length := none,
        max_length := none, min_value := some 18, max_value := some 21,
        allowed_values := none, null_fraction := 0, date_min := none,
        date_max := none }],
    encoding := "utf-8", delimiter := ",", decimal_separator := "." }

/-- A column of 51 pairwise-distinct non-empty cell values. -/
def rows51 : List (List String) :=
  (List.range 51).map (fun i => [String.append "v" (Nat.repr i)])

/-- `r` is the element of `l` with the maximal count whose first occurrence
comes earliest: everything before `r` in `l` has a strictly smaller count. -/
def IsFirstMax (counts : FieldType → Nat) (l : List FieldType) (r : FieldType) : Prop :=
  r ∈ l ∧ (∀ x ∈ l, counts x ≤ counts r) ∧
    ∃ l1 l2, l = l1 ++ r :: l2 ∧ ∀ x ∈ l1, counts x < counts r

/-! # Lemmas about the profiling loop -/

theorem profLoop_strict_ok (hs : List String) :
    ∀ (rows : List (List String)) (idx : Nat) (acc : List FieldStats × SepSeen),
      idx + rows.length ≤ MAX_ROWS →
      profLoop .strict hs idx rows acc =
        .ok (idx + rows.length, rows.foldl (fun a r => stepRow hs r a) acc) := by
  intro rows
  induction rows with
  | nil => intro idx acc _; simp [profLoop]
  | cons row rest ih =>
    intro idx acc h
    simp only [List.length_cons] at h ⊢
    have e : idx + (rest.length + 1) = (idx + 1) + rest.length := by omega
    rw [e]
    simp only [profLoop, List.foldl_cons]
    split
    · next hc => exact absurd hc (by omega)
    · split
      · next hc => exact absurd hc (by simp)
      · exact ih (idx + 1) (stepRow hs row acc) (by omega)

theorem profLoop_strict_err (hs : List String) :
    ∀ (rows : List (List String)) (idx : Nat) (acc : List FieldStats × SepSeen),
      idx ≤ MAX_ROWS → MAX_ROWS < idx + rows.length →
      profLoop .strict hs idx rows acc = .error .rowLimitExceeded := by
  intro rows
  induction rows with
  | nil => intro idx acc h1 h2; simp only [List.length_nil] at h2; omega
  | cons row rest ih =>
    intro idx acc h1 h2
    simp only [List.length_cons] at h2
    simp only [profLoop]
    split
    · rfl
    · next hc =>
      split
      · next hc2 => exact absurd hc2 (by simp)
      · exact ih (idx + 1) (stepRow hs row acc) (by omega) (by omega)

theorem profLoop_fast (hs : List String) :
    ∀ (rows : List (List String)) (idx : Nat) (acc : List FieldStats × SepSeen),
      idx ≤ FAST_SAMPLE_ROWS →
      profLoop .fast hs idx rows acc =
        .ok (min (idx + rows.length) (FAST_SAMPLE_ROWS + 1),
          (rows.take (FAST_SAMPLE_ROWS - idx)).foldl (fun a r => stepRow hs r a) acc) := by
  intro rows
  induction rows with
  | nil =>
    intro idx acc h
    simp only [List.length_nil, List.take_nil, List.foldl_nil, Nat.add_zero]
    have e : min idx (FAST_SAMPLE_ROWS + 1) = idx := by omega
    rw [e]
    simp [profLoop]
  | cons row rest ih =>
    intro idx acc h
    have hM : FAST_SAMPLE_ROWS + 1 ≤ MAX_ROWS := by decide
    simp only [profLoop, List.length_cons]
    split
    · next hc => exact absurd hc (by omega)
    · split
      · next hc =>
        have hgt : idx + 1 > FAST_SAMPLE_ROWS := hc.2
        have hidx : idx = FAST_SAMPLE_ROWS := by omega
        subst hidx
        have ht : FAST_SAMPLE_ROWS - FAST_SAMPLE_ROWS = 0 := by omega
        have e : min (FAST_SAMPLE_ROWS + (rest.length + 1)) (FAST_SAMPLE_ROWS + 1) =
            FAST_SAMPLE_ROWS + 1 := by omega
        rw [ht, e]
        simp
      · next hc =>
        have hle : idx < FAST_SAMPLE_ROWS := by
          by_contra hnot
          exact hc ⟨by trivial, by omega⟩
        rw [ih (idx + 1) (stepRow hs row acc) (by omega)]
        have e1 : min (idx + (rest.length + 1)) (FAST_SAMPLE_ROWS + 1) =
            min ((idx + 1) + rest.length) (FAST_SAMPLE_ROWS + 1) := by omega
        have e2 : FAST_SAMPLE_ROWS - idx = (FAST_SAMPLE_ROWS - (idx + 1)) + 1 := by omega
        rw [e1, e2]
        simp only [List.take_succ_cons, List.foldl_cons]

/-- Components of the row fold: statistics and separator set evolve
independently. -/
theorem foldl_stepRow_pair (hs : List String) :
    ∀ (rows : List (List String)) (st : List FieldStats) (sp : SepSeen),
      rows.foldl (fun a r => stepRow hs r a) (st, sp) =
        (rows.foldl (fun a r => registerRow r 0 a) st,
         rows.foldl (fun s r => sepsCells r 0 hs s) sp) := by
  intro rows
  induction rows with
  | nil => intro st sp; rfl
  | cons row rest ih => intro st sp; simp only [List.foldl_cons]; exact ih _ _

/-- The separator set after one `add`, as Boolean updates. -/
theorem sepSeen_add_eq (s : SepSeen) (o : Option Char) :
    s.add o = ⟨s.dot || decide (o = some '.'), s.comma || decide (o = some ',')⟩ := by
  rcases o with _ | c
  · simp [SepSeen.add]
  · unfold SepSeen.add
    split <;> simp_all

/-- One record's separator pass, as Boolean updates. -/
theorem sepsCells_eq (row : List String) :
    ∀ (hs : List String) (j : Nat) (s : SepSeen),
      sepsCells row j hs s =
        ⟨s.dot || sawInRow '.' row j hs, s.comma || sawInRow ',' row j hs⟩ := by
  intro hs
  induction hs with
  | nil => intro j s; simp [sepsCells, sawInRow]
  | cons hh ht ih =>
    intro j s
    simp only [sepsCells, sawInRow, ih, sepSeen_add_eq, Bool.or_assoc]

/-- The whole loop's separator set records exactly the separators detected in
the processed records. -/
theorem sepsFold_eq (hs : List String) :
    ∀ (rows : List (List String)) (sp : SepSeen),
      rows.foldl (fun s r => sepsCells r 0 hs s) sp =
        ⟨sp.dot || sawSep '.' hs rows, sp.comma || sawSep ',' hs rows⟩ := by
  intro rows
  induction rows with
  | nil => intro sp; simp [sawSep]
  | cons row rest ih =>
    intro sp
    simp only [List.foldl_cons]
    rw [ih (sepsCells row 0 hs sp), sepsCells_eq]
    simp [sawSep, Bool.or_assoc]

/-- Structure of every successful profiling result: the statistics are the
per-column fold over the examined records, the separator set is the union over
their cells, and the row count is positive in strict mode. -/
theorem profileFromRows_ok_eq (m : ParseMode) (hs : List String)
    (rows : List (List String)) (d e : String) (P : ProfileResult)
    (h : profileFromRows m hs rows d e = .ok P) :
    ∃ total,
      P = { row_count := total
            fields := ((examinedRows m rows).foldl (fun a r => registerRow r 0 a)
              (hs.map FieldStats.init)).map (finalizeField total)
            encoding := e
            delimiter := d
            decimal_separator :=
              if sawSep ',' hs (examinedRows m rows) = true ∧
                  ¬ sawSep '.' hs (examinedRows m rows) = true then "," else "." } := by
  cases m with
  | fast =>
    refine ⟨min rows.length FAST_SAMPLE_ROWS, ?_⟩
    unfold profileFromRows at h
    rw [profLoop_fast hs rows 0 _ (Nat.zero_le _)] at h
    rw [foldl_stepRow_pair] at h
    simp only [Nat.zero_add, Nat.sub_zero] at h
    simp only [Except.bind, bind, totalRowsOf, sepsFold_eq] at h
    simp only [examinedRows]
    have etot : min (min rows.length (FAST_SAMPLE_ROWS + 1)) FAST_SAMPLE_ROWS =
        min rows.length FAST_SAMPLE_ROWS := by omega
    rw [etot] at h
    simp only [Bool.false_or] at h
    injection h with h2
    exact h2.symm
  | strict =>
    by_cases hlen : rows.length ≤ MAX_ROWS
    · refine ⟨rows.length, ?_⟩
      unfold profileFromRows at h
      rw [profLoop_strict_ok hs rows 0 _ (by omega)] at h
      rw [foldl_stepRow_pair] at h
      simp only [Nat.zero_add] at h
      simp only [Except.bind, bind, totalRowsOf, sepsFold_eq] at h
      by_cases h0 : rows.length = 0
      · rw [if_pos h0] at h
        exact absurd h (by intro hh; exact Except.noConfusion hh)
      · rw [if_neg h0] at h
        simp only [examinedRows, Bool.false_or] at h ⊢
        injection h with h2
        exact h2.symm
    · exfalso
      unfold profileFromRows at h
      rw [profLoop_strict_err hs rows 0 _ (by omega) (by omega)] at h
      simp only [Except.bind, bind] at h
      exact Except.noConfusion h

/-- Fast-mode profiling always succeeds. -/
theorem profileFromRows_fast_ok (hs : List String) (rows : List (List String))
    (d e : String) : ∃ P, profileFromRows .fast hs rows d e = .ok P := by
  unfold profileFromRows
  rw [profLoop_fast hs rows 0 _ (Nat.zero_le _)]
  exact ⟨_, rfl⟩

/-- Strict-mode profiling of more than `MAX_ROWS` records aborts. -/
theorem profileFromRows_strict_err (hs : List String) (rows : List (List String))
    (d e : String) (h : rows.length > MAX_ROWS) :
    profileFromRows .strict hs rows d e = .error .rowLimitExceeded := by
  unfold profileFromRows
  rw [profLoop_strict_err hs rows 0 _ (by omega) (by omega)]
  simp only [Except.bind, bind]

/-! # Lemmas about `FieldStats.register` -/

theorem register_allowed (st : FieldStats) (v : String) (t : FieldType) :
    (st.register v t).allowed = if v = "" then st.allowed else allowedAdd st.allowed v := by
  unfold FieldStats.register
  by_cases hv : v = ""
  · simp [hv]
  · rcases hnm : normalize_numeric v with _ | q <;>
      rcases hpd : parse_datetime v with _ | dtv <;>
        simp [hv, hnm, hpd] <;> split_ifs <;> rfl

theorem register_nulls (st : FieldStats) (v : String) (t : FieldType) :
    (st.register v t).nulls = st.nulls + (if v = "" then 1 else 0) := by
  unfold FieldStats.register
  by_cases hv : v = ""
  · simp [hv]
  · rcases hnm : normalize_numeric v with _ | q <;>
      rcases hpd : parse_datetime v with _ | dtv <;>
        simp [hv, hnm, hpd] <;> split_ifs <;> rfl

theorem register_counts (st : FieldStats) (v : String) (t : FieldType) :
    (st.register v t).counts = fun x => if x = t then st.counts x + 1 else st.counts x := by
  unfold FieldStats.register
  by_cases hv : v = ""
  · simp [hv]
  · rcases hnm : normalize_numeric v with _ | q <;>
      rcases hpd : parse_datetime v with _ | dtv <;>
        simp [hv, hnm, hpd] <;> split_ifs <;> rfl

theorem register_max_len (st : FieldStats) (v : String) (t : FieldType) :
    (st.register v t).max_len = if v = "" then st.max_len else max st.max_len v.length := by
  unfold FieldStats.register
  by_cases hv : v = ""
  · simp [hv]
  · rcases hnm : normalize_numeric v with _ | q <;>
      rcases hpd : parse_datetime v with _ | dtv <;>
        simp [hv, hnm, hpd] <;> split_ifs <;> rfl

theorem register_min_len (st : FieldStats) (v : String) (t : FieldType) :
    (st.register v t).min_len =
      if v = "" then st.min_len
      else some (match st.min_len with | none => v.length | some m => min m v.length) := by
  unfold FieldStats.register
  by_cases hv : v = ""
  · simp [hv]
  · rcases hnm : normalize_numeric v with _ | q <;>
      rcases hpd : parse_datetime v with _ | dtv <;>
        simp [hv, hnm, hpd] <;> split_ifs <;> rfl

theorem register_min_val (st : FieldStats) (v : String) (t : FieldType) :
    (st.register v t).min_val =
      if v ≠ "" ∧ (t = .integer ∨ t = .float ∨ t = .decimal) then
        match normalize_numeric v with
        | some q => some (match st.min_val with | none => q | some a => min a q)
        | none => st.min_val
      else st.min_val := by
  unfold FieldStats.register
  by_cases hv : v = ""
  · simp [hv]
  · rcases hnm : normalize_numeric v with _ | q <;>
      rcases hpd : parse_datetime v with _ | dtv <;>
        simp [hv, hnm, hpd] <;> split_ifs <;> first | rfl | simp_all

theorem register_max_val (st : FieldStats) (v : String) (t : FieldType) :
    (st.register v t).max_val =
      if v ≠ "" ∧ (t = .integer ∨ t = .float ∨ t = .decimal) then
        match normalize_numeric v with
        | some q => some (match st.max_val with | none => q | some b => max b q)
        | none => st.max_val
      else st.max_val := by
  unfold FieldStats.register
  by_cases hv : v = ""
  · simp [hv]
  · rcases hnm : normalize_numeric v with _ | q <;>
      rcases hpd : parse_datetime v with _ | dtv <;>
        simp [hv, hnm, hpd] <;> split_ifs <;> first | rfl | simp_all

theorem register_min_date (st : FieldStats) (v : String) (t : FieldType) :
    (st.register v t).min_date =
      if v ≠ "" ∧ (t = .date ∨ t = .datetime) then
        match parse_datetime v with
        | some dt => some (match st.min_date with | none => dt | some a => min a dt)
        | none => st.min_date
      else st.min_date := by
  unfold FieldStats.register
  by_cases hv : v = ""
  · simp [hv]
  · rcases hnm : normalize_numeric v with _ | q <;>
      rcases hpd : parse_datetime v with _ | dtv <;>
        simp [hv, hnm, hpd] <;> split_ifs <;> first | rfl | simp_all

theorem register_max_date (st : FieldStats) (v : String) (t : FieldType) :
    (st.register v t).max_date =
      if v ≠ "" ∧ (t = .date ∨ t = .datetime) then
        match parse_datetime v with
        | some dt => some (match st.max_date with | none => dt | some b => max b dt)
        | none => st.max_date
      else st.max_date := by
  unfold FieldStats.register
  by_cases hv : v = ""
  · simp [hv]
  · rcases hnm : normalize_numeric v with _ | q <;>
      rcases hpd : parse_datetime v with _ | dtv <;>
        simp [hv, hnm, hpd] <;> split_ifs <;> first | rfl | simp_all

/-- `register` preserves the bound-consistency invariants. -/
theorem register_inv (st : FieldStats) (v : String) (t : FieldType)
    (h : StatsInv st) : StatsInv (st.register v t) := by
  obtain ⟨hvs, hval, hlen, hds, hdate⟩ := h
  refine ⟨?_, ?_, ?_, ?_, ?_⟩
  · rw [register_min_val, register_max_val]
    split_ifs with hc
    · rcases hnm : normalize_numeric v with _ | q
      · exact hvs
      · simp
    · exact hvs
  · intro a b ha hb
    rw [register_min_val] at ha
    rw [register_max_val] at hb
    split_ifs at ha hb with hc
    · rcases hnm : normalize_numeric v with _ | q
      · rw [hnm] at ha hb; exact hval a b ha hb
      · rw [hnm] at ha hb
        rcases hmv : st.min_val with _ | a0 <;> rcases hxv : st.max_val with _ | b0 <;>
          rw [hmv] at ha hvs <;> rw [hxv] at hb hvs
        · injection ha with ha1; injection hb with hb1
          subst ha1; subst hb1; exact le_refl q
        · simp at hvs
        · simp at hvs
        · injection ha with ha1; injection hb with hb1
          subst ha1; subst hb1
          exact le_trans (min_le_left a0 q) (le_trans (hval a0 b0 hmv hxv) (le_max_left b0 q))
    · exact hval a b ha hb
  · intro n hn
    rw [register_min_len] at hn
    rw [register_max_len]
    split_ifs at hn ⊢ with hc
    · exact hlen n hn
    · rcases hml : st.min_len with _ | m <;> rw [hml] at hn
      · injection hn with hn1; subst hn1; exact le_max_right _ _
      · injection hn with hn1; subst hn1
        exact le_trans (min_le_left m v.length) (le_trans (hlen m hml) (le_max_left _ _))
  · rw [register_min_date, register_max_date]
    split_ifs with hc
    · rcases hpd : parse_datetime v with _ | dt
      · exact hds
      · simp
    · exact hds
  · intro a b ha hb
    rw [register_min_date] at ha
    rw [register_max_date] at hb
    split_ifs at ha hb with hc
    · rcases hpd : parse_datetime v with _ | dt
      · rw [hpd] at ha hb; exact hdate a b ha hb
      · rw [hpd] at ha hb
        rcases hmv : st.min_date with _ | a0 <;> rcases hxv : st.max_date with _ | b0 <;>
          rw [hmv] at ha hds <;> rw [hxv] at hb hds
        · injection ha with ha1; injection hb with hb1
          subst ha1; subst hb1; exact le_refl dt
        · simp at hds
        · simp at hds
        · injection ha with ha1; injection hb with hb1
          subst ha1; subst hb1
          exact le_trans (min_le_left a0 dt) (le_trans (hdate a0 b0 hmv hxv) (le_max_left b0 dt))
    · exact hdate a b ha hb

/-- One record's pass preserves the invariants of every column. -/
theorem registerRow_inv (row : List String) :
    ∀ (stats : List FieldStats) (j : Nat),
      (∀ st ∈ stats, StatsInv st) →
      ∀ st ∈ registerRow row j stats, StatsInv st := by
  intro stats
  induction stats with
  | nil => intro j _ st hst; simp [registerRow] at hst
  | cons s rest ih =>
    intro j hall st hst
    simp only [registerRow, List.mem_cons] at hst
    rcases hst with h1 | h2
    · subst h1
      exact register_inv _ _ _ (hall s (List.mem_cons_self s rest))
    · exact ih (j + 1) (fun x hx => hall x (List.mem_cons_of_mem s hx)) st h2

/-- The whole loop preserves the invariants of every column. -/
theorem foldRows_inv (rows : List (List String)) :
    ∀ (stats : List FieldStats),
      (∀ st ∈ stats, StatsInv st) →
      ∀ st ∈ rows.foldl (fun a r => registerRow r 0 a) stats, StatsInv st := by
  induction rows with
  | nil => intro stats hall; simpa using hall
  | cons row rest ih =>
    intro stats hall
    simp only [List.foldl_cons]
    exact ih (registerRow row 0 stats) (registerRow_inv row stats 0 hall)

/-- Fresh accumulators satisfy the invariants. -/
theorem init_inv (h : String) : StatsInv (FieldStats.init h) := by
  refine ⟨by simp [FieldStats.init], ?_, ?_, by simp [FieldStats.init], ?_⟩
  · intro a b hab hbb; simp [FieldStats.init] at hab
  · intro n hn; simp [FieldStats.init] at hn
  · intro a b hab hbb; simp [FieldStats.init] at hab

/-- Claim C9: in every `FieldConstraint` of a `ProfileResult` produced by
`profile_from_text`, whenever `min_value` and `max_value` are both set then
`min_value ≤ max_value`, whenever `min_length` and `max_length` are both set
then `min_length ≤ max_length`, and whenever `date_min` and `date_max` are
both set then `date_min ≤ date_max`. -/
theorem claim9_bound_invariants (m : ParseMode) (hs : List String)
    (rows : List (List String)) (d e : String) (P : ProfileResult)
    (h : profileFromRows m hs rows d e = .ok P) :
    ∀ f ∈ P.fields,
      (∀ a b, f.min_value = some a → f.max_value = some b → a ≤ b) ∧
      (∀ n x, f.min_length = some n → f.max_length = some x → n ≤ x) ∧
      (∀ a b, f.date_min = some a → f.date_max = some b → a ≤ b) := by
  obtain ⟨total, hP⟩ := profileFromRows_ok_eq m hs rows d e P h
  subst hP
  intro f hf
  simp only [List.mem_map] at hf
  obtain ⟨st, hst, rfl⟩ := hf
  have hinv : StatsInv st := by
    refine foldRows_inv _ _ ?_ st hst
    intro s hc
    simp only [List.mem_map] at hc
    obtain ⟨hh, -, rfl⟩ := hc
    exact init_inv hh
  obtain ⟨hvs, hval, hlen, hds, hdate⟩ := hinv
  refine ⟨?_, ?_, ?_⟩
  · intro a b ha hb
    exact hval a b ha hb
  · intro n x hn hx
    simp only [finalizeField] at hn hx
    injection hx with hx1
    subst hx1
    exact hlen n hn
  · intro a b ha hb
    exact hdate a b ha hb

/-- Witness for C9 at a concrete strict-mode profiling call. -/
theorem claim9_bound_invariants_witness :
    ∃ P, profileFromRows .strict ["a"] [["5"]] "," "utf-8" = Except.ok P ∧
      ∀ f ∈ P.fields,
        (∀ a b, f.min_value = some a → f.max_value = some b → a ≤ b) ∧
        (∀ n x, f.min_length = some n → f.max_length = some x → n ≤ x) ∧
        (∀ a b, f.date_min = some a → f.date_max = some b → a ≤ b) := by
  have h : profileFromRows .strict ["a"] [["5"]] "," "utf-8" =
      Except.ok (⟨1, [⟨"a", .integer, false, some 1, some 1, some 5, some 5,
        some ["5"], 0, none, none⟩], "utf-8", ",", "."⟩ : ProfileResult) := by decide
  exact ⟨_, h, claim9_bound_invariants _ _ _ _ _ _ h⟩

/-- Claim C10 (evaluation at the failing input): strict-mode profiling of a
file with a header row and zero data rows does not return the empty-column
profile with `null_fraction` 0 that the claim (and the code's own
`'idx' in locals()` guard) describe — it raises the `NameError` on the bare
`idx` in the `total_rows` expression, because `sample_limit or idx` evaluates
`idx` when `sample_limit` is `None`. -/
theorem claim10_empty_strict_nameerror :
    profileFromRows .strict ["a", "b"] [] "," "utf-8" =
      Except.error PyErr.nameErrorIdx := by decide

/-- Counterexample to claim C3: fast-mode profiling of a text with
`MAX_ROWS + 1` (100,001) data rows returns a profile instead of aborting with
`RowLimitExceeded` — the 5,000-row sample break runs before the hard-cap check
can ever fire. -/
theorem claim3_counterexample :
    exceptIsOk (profileFromRows .fast ["col"]
      (List.replicate (MAX_ROWS + 1) ["1"]) "," "utf-8") = true := by
  obtain ⟨P, hP⟩ :=
    profileFromRows_fast_ok ["col"] (List.replicate (MAX_ROWS + 1) ["1"]) "," "utf-8"
  rw [hP]
  rfl

/-- Claim C3 (amended): the hard row cap is enforced only in strict mode.  In
fast mode the loop breaks at the 5,000-row sample cap before row 100,001 can
be reached, so fast-mode profiling never raises `RowLimitExceeded` (it
succeeds for every input); in strict mode any input with more than `MAX_ROWS`
data rows aborts with `RowLimitExceeded`. -/
theorem claim3_amended :
    (∀ (hs : List String) (rows : List (List String)) (d e : String),
      exceptIsOk (profileFromRows .fast hs rows d e) = true) ∧
    (∀ (hs : List String) (rows : List (List String)) (d e : String),
      rows.length > MAX_ROWS →
      profileFromRows .strict hs rows d e = Except.error PyErr.rowLimitExceeded) := by
  constructor
  · intro hs rows d e
    obtain ⟨P, hP⟩ := profileFromRows_fast_ok hs rows d e
    rw [hP]
    rfl
  · intro hs rows d e h
    exact profileFromRows_strict_err hs rows d e h

/-- Witness for the amended C3 at a concrete oversize input. -/
theorem claim3_amended_witness :
    (List.replicate (MAX_ROWS + 1) (["1"] : List String)).length > MAX_ROWS ∧
    profileFromRows .strict ["col"] (List.replicate (MAX_ROWS + 1) ["1"]) "," "utf-8" =
      Except.error PyErr.rowLimitExceeded := by
  have hlen : (List.replicate (MAX_ROWS + 1) (["1"] : List String)).length > MAX_ROWS := by
    simp
  exact ⟨hlen, claim3_amended.2 _ _ _ _ hlen⟩

/-- Claim C7: profiling (in strict mode, the mode of the source's row-cap
test) a text with `MAX_ROWS + 1` data rows fails with `RowLimitExceeded`, and
requesting synthesis of more than `MAX_ROWS` rows fails with
`RowLimitExceeded` before any row is generated (the call returns the error
and no record list). -/
theorem claim7_row_caps :
    profileFromRows .strict ["col"] (List.replicate (MAX_ROWS + 1) ["x"]) "," "utf-8" =
      Except.error PyErr.rowLimitExceeded ∧
    ∀ (p : ProfileResult) (n : Nat) (seed : Option Int) (σ : RandState) (now : Int),
      n > MAX_ROWS → generateRows p n seed σ now = Except.error PyErr.rowLimitExceeded := by
  constructor
  · exact profileFromRows_strict_err _ _ _ _ (by simp)
  · intro p n seed σ now h
    unfold generateRows
    rw [if_pos h]

/-- Witness for C7's synthesis half at a concrete oversize request. -/
theorem claim7_row_caps_witness :
    MAX_ROWS + 1 > MAX_ROWS ∧
    generateRows profileBasic (MAX_ROWS + 1) (some 1) streamZero 0 =
      Except.error PyErr.rowLimitExceeded :=
  ⟨by omega, claim7_row_caps.2 _ _ _ _ _ (by omega)⟩

/-- Claim C6: the file-wide decimal separator of a profiling result is `","`
iff `","` was detected in at least one examined cell by
`detect_decimal_separator` (the numeric-pattern detector) and `"."` was never
detected; in every other case it is `"."`. -/
theorem claim6_decimal_separator (m : ParseMode) (hs : List String)
    (rows : List (List String)) (d e : String) (P : ProfileResult)
    (h : profileFromRows m hs rows d e = .ok P) :
    (P.decimal_separator = "," ↔
      (sawSep ',' hs (examinedRows m rows) = true ∧
       sawSep '.' hs (examinedRows m rows) = false)) := by
  obtain ⟨total, hP⟩ := profileFromRows_ok_eq m hs rows d e P h
  subst hP
  simp only []
  split_ifs with hc
  · exact ⟨fun _ => ⟨hc.1, by simpa using hc.2⟩, fun _ => rfl⟩
  · constructor
    · intro habs
      exact absurd habs (by decide)
    · rintro ⟨h1, h2⟩
      exact absurd ⟨h1, by simp [h2]⟩ hc

/-- Witness for C6 at a concrete profiling call whose single cell `"1,5"`
carries a comma separator. -/
theorem claim6_decimal_separator_witness :
    ∃ P, profileFromRows .strict ["a"] [["1,5"]] "," "utf-8" = Except.ok P ∧
      (P.decimal_separator = "," ↔
        (sawSep ',' ["a"] (examinedRows .strict [["1,5"]]) = true ∧
         sawSep '.' ["a"] (examinedRows .strict [["1,5"]]) = false)) := by
  have h : profileFromRows .strict ["a"] [["1,5"]] "," "utf-8" =
      Except.ok (⟨1, [⟨"a", .decimal, false, some 3, some 3, some (3 / 2), some (3 / 2),
        some ["1,5"], 0, none, none⟩], "utf-8", ",", ","⟩ : ProfileResult) := by decide
  exact ⟨_, h, claim6_decimal_separator _ _ _ _ _ _ h⟩

/-! # Lemmas for the bounded distinct-value set -/

theorem allowedAddAll_cons (l : List String) (v : String) (vs : List String) :
    allowedAddAll l (v :: vs) =
      allowedAddAll (if v = "" then l else allowedAdd l v) vs := rfl

theorem registerAll_allowed :
    ∀ (cells : List (String × FieldType)) (st : FieldStats),
      (cells.foldl (fun a p => a.register p.1 p.2) st).allowed =
        allowedAddAll st.allowed (cells.map Prod.fst) := by
  intro cells
  induction cells with
  | nil => intro st; rfl
  | cons c rest ih =>
    intro st
    rw [List.foldl_cons, List.map_cons, allowedAddAll_cons, ih, register_allowed]

theorem registerAll_nulls :
    ∀ (cells : List (String × FieldType)) (st : FieldStats),
      (cells.foldl (fun a p => a.register p.1 p.2) st).nulls =
        st.nulls + (cells.filter (fun p => p.1 = "")).length := by
  intro cells
  induction cells with
  | nil => intro st; simp
  | cons c rest ih =>
    intro st
    rw [List.foldl_cons, ih, register_nulls]
    by_cases hv : c.1 = "" <;> simp [List.filter_cons, hv] <;> omega

theorem registerAll_counts :
    ∀ (cells : List (String × FieldType)) (st : FieldStats) (t : FieldType),
      (cells.foldl (fun a p => a.register p.1 p.2) st).counts t =
        st.counts t + (cells.filter (fun p => p.2 = t)).length := by
  intro cells
  induction cells with
  | nil => intro st t; simp
  | cons c rest ih =>
    intro st t
    rw [List.foldl_cons, ih, register_counts]
    by_cases ht : t = c.2
    · subst ht
      simp [List.filter_cons]
      omega
    · have ht2 : ¬ (c.2 = t) := fun hh => ht hh.symm
      simp [List.filter_cons, ht, ht2]

theorem registerAll_max_len :
    ∀ (cells : List (String × FieldType)) (st : FieldStats),
      (cells.foldl (fun a p => a.register p.1 p.2) st).max_len =
        (cells.map Prod.fst).foldl
          (fun m v => if v = "" then m else max m v.length) st.max_len := by
  intro cells
  induction cells with
  | nil => intro st; rfl
  | cons c rest ih =>
    intro st
    rw [List.foldl_cons, List.map_cons, List.foldl_cons, ih, register_max_len]

/-- The capped set is the 50-element prefix of the uncapped first-occurrence
list. -/
theorem allowedAddAll_take :
    ∀ (vs acc1 acc2 : List String),
      acc1 = acc2.take 50 → acc2.Nodup → "" ∉ acc2 →
      allowedAddAll acc1 vs =
        (vs.foldl (fun a v => if v = "" ∨ v ∈ a then a else a ++ [v]) acc2).take 50 ∧
      (vs.foldl (fun a v => if v = "" ∨ v ∈ a then a else a ++ [v]) acc2).Nodup ∧
      "" ∉ vs.foldl (fun a v => if v = "" ∨ v ∈ a then a else a ++ [v]) acc2 := by
  intro vs
  induction vs with
  | nil => intro a1 a2 h1 h2 h3; exact ⟨h1, h2, h3⟩
  | cons v rest ih =>
    intro a1 a2 h1 h2 h3
    rw [allowedAddAll_cons, List.foldl_cons]
    by_cases hv : v = ""
    · rw [if_pos hv, if_pos (Or.inl hv)]
      exact ih a1 a2 h1 h2 h3
    · rw [if_neg hv]
      by_cases hm : v ∈ a2
      · rw [if_pos (Or.inr hm)]
        have ha1 : allowedAdd a1 v = a1 := by
          unfold allowedAdd
          by_cases hm1 : v ∈ a1
          · rw [if_neg]; rintro ⟨-, hnot⟩; exact hnot hm1
          · have hlen : ¬ a2.length ≤ 50 := by
              intro hle
              rw [List.take_of_length_le hle] at h1
              exact hm1 (h1 ▸ hm)
            have hlen1 : a1.length = 50 := by
              rw [h1, List.length_take]; omega
            rw [if_neg]; rintro ⟨hlt, -⟩; omega
        rw [ha1]
        exact ih a1 a2 h1 h2 h3
      · rw [if_neg (by rintro (h | h); exact hv h; exact hm h)]
        have hnodup : (a2 ++ [v]).Nodup :=
          h2.append (List.nodup_singleton v) (List.disjoint_singleton.mpr hm)
        have hmem : "" ∉ a2 ++ [v] := by
          intro hmm
          rcases List.mem_append.mp hmm with hA | hB
          · exact h3 hA
          · rcases List.mem_singleton.mp hB with rfl
            exact hv rfl
        by_cases hlt : a2.length < 50
        · have he : a1 = a2 := by rw [h1, List.take_of_length_le (by omega)]
          have ha1 : allowedAdd a1 v = a1 ++ [v] := by
            unfold allowedAdd
            rw [if_pos ⟨by rw [h1, List.length_take]; omega, by rw [he]; exact hm⟩]
          rw [ha1]
          refine ih (a1 ++ [v]) (a2 ++ [v])
            ?_ hnodup hmem
          rw [he, List.take_of_length_le (by simp; omega)]
        · have hlen1 : a1.length = 50 := by rw [h1, List.length_take]; omega
          have ha1 : allowedAdd a1 v = a1 := by
            unfold allowedAdd; rw [if_neg]; rintro ⟨hl, -⟩; omega
          rw [ha1]
          refine ih a1 (a2 ++ [v]) ?_ hnodup hmem
          rw [h1, List.take_append_of_le_length (by omega)]

/-- The first-occurrence list is empty exactly when every value was empty. -/
theorem fdFold_eq_nil :
    ∀ (vs acc : List String),
      (vs.foldl (fun a v => if v = "" ∨ v ∈ a then a else a ++ [v]) acc) = [] ↔
        (acc = [] ∧ ∀ v ∈ vs, v = "") := by
  intro vs
  induction vs with
  | nil => intro acc; simp
  | cons v rest ih =>
    intro acc
    rw [List.foldl_cons]
    by_cases hv : v = ""
    · rw [if_pos (Or.inl hv), ih]
      constructor
      · rintro ⟨h1, h2⟩
        refine ⟨h1, ?_⟩
        intro x hx
        rcases List.mem_cons.mp hx with rfl | hx2
        · exact hv
        · exact h2 x hx2
      · rintro ⟨h1, h2⟩
        exact ⟨h1, fun x hx => h2 x (List.mem_cons_of_mem _ hx)⟩
    · by_cases hm : v ∈ acc
      · rw [if_pos (Or.inr hm), ih]
        constructor
        · rintro ⟨h1, -⟩
          subst h1
          simp at hm
        · rintro ⟨-, h2⟩
          exact absurd (h2 v (List.mem_cons_self v rest)) hv
      · rw [if_neg (by rintro (h | h); exact hv h; exact hm h), ih]
        constructor
        · rintro ⟨h1, -⟩
          exact absurd h1 (by simp)
        · rintro ⟨-, h2⟩
          exact absurd (h2 v (List.mem_cons_self v rest)) hv

set_option maxHeartbeats 4000000 in
set_option maxRecDepth 20000 in
/-- Counterexample to claim C1: a fast-mode profiling call on a column with 51
pairwise-distinct non-empty raw values still receives a populated
`allowed_values` (with 50 entries) — the `register` guard stops the set from
ever exceeding 50 members, so the finalisation check `len(...) <= 50` always
passes and the list is never dropped. -/
theorem claim1_counterexample :
    (firstDistinctNonEmpty (rows51.map (fun r => r.getD 0 ""))).length = 51 ∧
    exceptCheck (fun P => P.fields.all (fun f => f.allowed_values.isSome &&
      decide ((f.allowed_values.getD []).length = 50)))
      (profileFromRows .fast ["c"] rows51 "," "utf-8") = true := by
  constructor <;> decide

/-- Claim C1 (amended): for every registration sequence of a column,
`allowed_values` is absent iff the column had no non-empty cell; otherwise it
is populated with the sorted 50-element (or shorter) prefix of the column's
distinct non-empty values in first-occurrence order — in particular a column
with 51 distinct non-empty values receives the first 50 of them, not an
absent field.  The other statistics (null count, per-type counts, maximum raw
length) are computed from the same cells, unaffected by the cap. -/
theorem claim1_amended (h : String) (cells : List (String × FieldType)) (total : Nat) :
    ((finalizeField total (registerAll h cells)).allowed_values =
      if firstDistinctNonEmpty (cells.map Prod.fst) = [] then none
      else some (sortStrings ((firstDistinctNonEmpty (cells.map Prod.fst)).take 50))) ∧
    (registerAll h cells).nulls = (cells.filter (fun p => p.1 = "")).length ∧
    (∀ t, (registerAll h cells).counts t = (cells.filter (fun p => p.2 = t)).length) ∧
    (registerAll h cells).max_len =
      (cells.map Prod.fst).foldl (fun m v => if v = "" then m else max m v.length) 0 := by
  have hA := allowedAddAll_take (cells.map Prod.fst) [] [] (by simp) List.nodup_nil
    (by simp)
  have hreg : (registerAll h cells).allowed =
      (firstDistinctNonEmpty (cells.map Prod.fst)).take 50 := by
    unfold registerAll firstDistinctNonEmpty
    rw [registerAll_allowed]
    exact hA.1
  refine ⟨?_, ?_, ?_, ?_⟩
  · simp only [finalizeField]
    rw [hreg]
    by_cases hfd : firstDistinctNonEmpty (cells.map Prod.fst) = []
    · rw [hfd]
      simp
    · rw [if_neg hfd, if_pos]
      constructor
      · intro htake
        rcases List.take_eq_nil_iff.mp htake with h50 | hnil
        · exact absurd h50 (by omega)
        · exact hfd hnil
      · rw [List.length_take]
        omega
  · unfold registerAll
    rw [registerAll_nulls]
    simp [FieldStats.init]
  · intro t
    unfold registerAll
    rw [registerAll_counts]
    simp [FieldStats.init]
  · unfold registerAll
    rw [registerAll_max_len]
    rfl

/-! # Lemmas for final-type selection -/

/-- The fold of `pick_final_type` keeps the first element attaining the
maximal count (strictly-greater replacement = stable descending sort head). -/
theorem foldBest_spec (counts : FieldType → Nat) :
    ∀ (t : List FieldType) (h : FieldType),
      IsFirstMax counts (h :: t)
        (t.foldl (fun best x => if counts x > counts best then x else best) h) := by
  intro t
  induction t with
  | nil =>
    intro h
    exact ⟨List.mem_singleton.mpr rfl, by simp, [], [], rfl, by simp⟩
  | cons x xs ih =>
    intro h
    by_cases hc : counts x > counts h
    · simp only [List.foldl_cons, if_pos hc]
      obtain ⟨hmem, hmax, l1, l2, hdec, hlt⟩ := ih x
      refine ⟨List.mem_cons_of_mem h hmem, ?_, h :: l1, l2, ?_, ?_⟩
      · intro y hy
        rcases List.mem_cons.mp hy with rfl | hy2
        · exact le_of_lt (lt_of_lt_of_le hc (hmax x (List.mem_cons_self x xs)))
        · exact hmax y hy2
      · rw [hdec]
        rfl
      · intro y hy
        rcases List.mem_cons.mp hy with rfl | hy2
        · exact lt_of_lt_of_le hc (hmax x (List.mem_cons_self x xs))
        · exact hlt y hy2
    · simp only [List.foldl_cons, if_neg hc]
      obtain ⟨hmem, hmax, l1, l2, hdec, hlt⟩ := ih h
      have hr := hmax h (List.mem_cons_self h xs)
      cases l1 with
      | nil =>
        have hre : h = xs.foldl (fun best x => if counts x > counts best then x else best) h := by
          have := hdec
          simp only [List.nil_append] at this
          exact (List.cons.injEq _ _ _ _).mp this |>.1
        refine ⟨by rw [← hre]; exact List.mem_cons_self _ _, ?_, [],
          x :: xs, by rw [← hre]; rfl, by simp⟩
        intro y hy
        rcases List.mem_cons.mp hy with rfl | hy2
        · exact hr
        · rcases List.mem_cons.mp hy2 with rfl | hy3
          · exact le_trans (Nat.le_of_not_lt hc) hr
          · exact hmax y (List.mem_cons_of_mem h hy3)
      | cons a l1t =>
        have hdec2 := hdec
        simp only [List.cons_append] at hdec2
        have ha : h = a := ((List.cons.injEq _ _ _ _).mp hdec2).1
        have hxs : xs = l1t ++
            (xs.foldl (fun best x => if counts x > counts best then x else best) h) :: l2 :=
          ((List.cons.injEq _ _ _ _).mp hdec2).2
        have hmemr : xs.foldl (fun best x => if counts x > counts best then x else best) h ∈
            h :: x :: xs := by
          rcases List.mem_cons.mp hmem with hrh | hrxs
          · rw [hrh]; exact List.mem_cons_self _ _
          · exact List.mem_cons_of_mem h (List.mem_cons_of_mem x hrxs)
        have hhlt : counts h <
            counts (xs.foldl (fun best x => if counts x > counts best then x else best) h) := by
          have := hlt a (List.mem_cons_self a l1t)
          rw [← ha] at this
          exact this
        refine ⟨hmemr, ?_, h :: x :: l1t, l2, ?_, ?_⟩
        · intro y hy
          rcases List.mem_cons.mp hy with rfl | hy2
          · exact hr
          · rcases List.mem_cons.mp hy2 with rfl | hy3
            · exact le_trans (Nat.le_of_not_lt hc) hr
            · exact hmax y (List.mem_cons_of_mem h hy3)
        · rw [List.cons_append, List.cons_append, ← hxs]
        · intro y hy
          rcases List.mem_cons.mp hy with rfl | hy2
          · exact hhlt
          · rcases List.mem_cons.mp hy2 with rfl | hy3
            · exact lt_of_le_of_lt (Nat.le_of_not_lt hc) hhlt
            · exact hlt y (List.mem_cons_of_mem a hy3)

/-- Counterexample to claim C4: a column scanned as `["yes", "xyz"]` observes
`boolean` first and then `string`, one cell each.  First-seen tie-breaking
would resolve the tie to `boolean`, but `profile_from_text` resolves it to
`string`: the counts dict is created with every `FieldType` key in declaration
order before scanning starts, so the stable sort's tie order is declaration
order, not first-observation order. -/
theorem claim4_counterexample :
    ∃ P, profileFromRows .strict ["c"] [["yes"], ["xyz"]] "," "utf-8" = Except.ok P ∧
      columnTypes [["yes"], ["xyz"]] 0 = [FieldType.boolean, FieldType.string] ∧
      P.fields.map (fun f => f.type) = [FieldType.string] ∧
      specFirstSeenType [FieldType.boolean, FieldType.string] = FieldType.boolean ∧
      FieldType.string ≠ FieldType.boolean := by
  have h : profileFromRows .strict ["c"] [["yes"], ["xyz"]] "," "utf-8" =
      Except.ok (⟨2, [⟨"c", .string, false, some 3, some 3, none, none,
        some ["xyz", "yes"], 0, none, none⟩], "utf-8", ",", "."⟩ : ProfileResult) := by
    decide
  exact ⟨_, h, by decide, by decide, by decide, by decide⟩

/-- Claim C4 (amended): `pick_final_type` returns `empty` exactly when the
filtered declaration-ordered list of observed non-empty types is empty;
otherwise it returns the type of maximal count that comes first in the
`FieldType` declaration order — ties are broken by declaration order (string,
integer, float, decimal, boolean, date, datetime), not by first observation
while scanning. -/
theorem claim4_amended (counts : FieldType → Nat) :
    ((FieldType.enumOrder.filter
        (fun t => decide (counts t > 0) && decide (t ≠ FieldType.empty))) = [] →
      pick_final_type counts = FieldType.empty) ∧
    (∀ a l, (FieldType.enumOrder.filter
        (fun t => decide (counts t > 0) && decide (t ≠ FieldType.empty))) = a :: l →
      IsFirstMax counts (a :: l) (pick_final_type counts)) := by
  constructor
  · intro hf
    unfold pick_final_type
    rw [hf]
  · intro a l hf
    unfold pick_final_type
    rw [hf]
    exact foldBest_spec counts l a

/-- Witness for the amended C4 at the tie of the counterexample column. -/
theorem claim4_amended_witness :
    (FieldType.enumOrder.filter
        (fun t => decide ((fun x => ([FieldType.boolean, FieldType.string].filter
          (fun y => y = x)).length) t > 0) && decide (t ≠ FieldType.empty))) =
      [FieldType.string, FieldType.boolean] ∧
    IsFirstMax (fun x => ([FieldType.boolean, FieldType.string].filter
        (fun y => y = x)).length)
      [FieldType.string, FieldType.boolean]
      (pick_final_type (fun x => ([FieldType.boolean, FieldType.string].filter
        (fun y => y = x)).length)) := by
  refine ⟨by decide, ?_⟩
  exact (claim4_amended _).2 _ _ (by decide)

/-- Claim C8: for an integer-typed constraint with `min_value = 10`,
`max_value = 20` and `allowed_values = ["11", "15", "19"]`, every non-null
value produced by `_generate_value` — over any random-stream state, hence over
any number of generated rows — parses as an integer within `[10, 20]`: the
jittered choice is clamped into the bounds. -/
theorem claim8_bounded_integer (c : FieldConstraint) (σ : RandState) (sep : String) (now : Int)
    (ht : c.type = FieldType.integer)
    (hmin : c.min_value = some 10) (hmax : c.max_value = some 20)
    (hall : c.allowed_values = some ["11", "15", "19"]) :
    (generateValue c sep σ now).1 ≠ "" →
    ∃ n : Int, pyIntParse (generateValue c sep σ now).1 = some n ∧ 10 ≤ n ∧ n ≤ 20 := by
  intro hne
  unfold generateValue at hne ⊢
  rcases hpr : pyRandom σ with ⟨q, σ1⟩
  dsimp only at hne ⊢
  rw [hpr] at hne
  dsimp only at hne
  by_cases hnull : q < nullProbability c ∧ c.nullable = true
  · rw [if_pos hnull] at hne
    simp at hne
  · rw [if_neg hnull] at hne ⊢
    unfold genBody at hne ⊢
    rw [ht, hmin, hmax, hall] at hne ⊢
    rw [if_neg (by decide : ¬ (FieldType.integer = FieldType.boolean))] at hne ⊢
    rw [if_pos (rfl : FieldType.integer = FieldType.integer)] at hne ⊢
    have hpar : parsedAllowedNumbers pyIntParse (some ["11", "15", "19"]) = [11, 15, 19] := by
      decide
    rw [hpar] at hne ⊢
    dsimp only at hne ⊢
    have h1020 : ¬ ((pyTrunc 10 : Int) = pyTrunc 20) := by decide
    rw [if_neg h1020] at hne ⊢
    rw [if_pos (by decide : ([11, 15, 19] : List Int) ≠ [])] at hne ⊢
    rcases hch : pyChoice ([11, 15, 19] : List Int) 0 σ1 with ⟨choice, σ2⟩
    dsimp only at hne ⊢
    rcases hj : pyRandint (-5) 5 σ2 with ⟨jitter, σ3⟩
    dsimp only at hne ⊢
    have hlo : (10 : Int) ≤ max (pyTrunc 10) (min (pyTrunc 20) (choice + jitter)) := by
      have : pyTrunc 10 = (10 : Int) := by decide
      rw [this]
      exact le_max_left _ _
    have hhi : max (pyTrunc 10) (min (pyTrunc 20) (choice + jitter)) ≤ 20 := by
      exact max_le (by decide) (le_trans (min_le_left _ _) (by decide))
    set cand := max (pyTrunc 10) (min (pyTrunc 20) (choice + jitter)) with hcdef
    refine ⟨cand, ?_, hlo, hhi⟩
    interval_cases cand <;> decide

/-- Witness for C8 at a concrete constraint and stream. -/
theorem claim8_bounded_integer_witness :
    conIntBounded.type = FieldType.integer ∧
    conIntBounded.min_value = some 10 ∧
    conIntBounded.max_value = some 20 ∧
    conIntBounded.allowed_values = some ["11", "15", "19"] ∧
    (generateValue conIntBounded "." streamZero 0).1 ≠ "" ∧
    ∃ n : Int, pyIntParse (generateValue conIntBounded "." streamZero 0).1 = some n ∧
      10 ≤ n ∧ n ≤ 20 := by
  refine ⟨rfl, rfl, rfl, rfl, by decide, ?_⟩
  exact claim8_bounded_integer conIntBounded streamZero "." 0 rfl rfl rfl rfl (by decide)

theorem pyRandom_nonneg (σ : RandState) : 0 ≤ (pyRandom σ).1 := by
  unfold pyRandom RandState.next
  dsimp only
  positivity

theorem pyRandom_lt_one (σ : RandState) : (pyRandom σ).1 < 1 := by
  unfold pyRandom RandState.next
  dsimp only
  rw [div_lt_one (by norm_num)]
  exact_mod_cast Nat.mod_lt _ (by norm_num)

/-- Claim C5 (amended): decimal generation shares the float branch's lower
bound default (0) and equal-bounds widening (+1), but its upper bound defaults
to the constant 1000 — not to `max(low + 1, 1000)` as for floats — and every
non-null output is the 3-fractional-digit quantised rendering of a candidate
lying between the resolved bounds `decimalLow`/`decimalHighW` (so when
`min_value > 1000` and `max_value` is unset, generated values fall below
`min_value`). -/
theorem claim5_amended (c : FieldConstraint) (σ : RandState) (sep : String) (now : Int)
    (ht : c.type = FieldType.decimal) :
    (generateValue c sep σ now).1 = "" ∨
    ∃ q : Rat,
      (generateValue c sep σ now).1 = sepSwap sep (formatFixed3 (quantize3 q)) ∧
      min (decimalLow c) (decimalHighW c) ≤ q ∧
      q ≤ max (decimalLow c) (decimalHighW c) := by
  unfold generateValue
  rcases hpr : pyRandom σ with ⟨q0, σ1⟩
  dsimp only
  by_cases hnull : q0 < nullProbability c ∧ c.nullable = true
  · rw [if_pos hnull]
    exact Or.inl rfl
  · rw [if_neg hnull]
    right
    unfold genBody
    rw [ht]
    rw [if_neg (by decide : ¬ (FieldType.decimal = FieldType.boolean))]
    rw [if_neg (by decide : ¬ (FieldType.decimal = FieldType.integer))]
    rw [if_neg (by decide : ¬ (FieldType.decimal = FieldType.float))]
    rw [if_pos (rfl : FieldType.decimal = FieldType.decimal)]
    dsimp only
    by_cases hA : parsedAllowedNumbers pyDecimalParse c.allowed_values ≠ []
    · rw [if_pos hA]
      rcases hch : pyChoice (parsedAllowedNumbers pyDecimalParse c.allowed_values) 0 σ1
        with ⟨choice, σ2⟩
      dsimp only
      rcases hu : pyUniform (-((decimalHighW c - decimalLow c) * (1 / 20)))
          ((decimalHighW c - decimalLow c) * (1 / 20)) σ2 with ⟨u, σ3⟩
      dsimp only
      refine ⟨min (decimalHighW c) (max (decimalLow c) (choice + u)), rfl, ?_, ?_⟩
      · exact le_min (min_le_right _ _)
          (le_trans (min_le_left _ _) (le_max_left _ _))
      · exact le_trans (min_le_left _ _) (le_max_right _ _)
    · rw [if_neg hA]
      push_neg at hA
      rcases hr : pyRandom σ1 with ⟨r, σ2⟩
      dsimp only
      have hr0 : 0 ≤ r := by
        have := pyRandom_nonneg σ1
        rw [hr] at this
        exact this
      have hr1 : r < 1 := by
        have := pyRandom_lt_one σ1
        rw [hr] at this
        exact this
      refine ⟨decimalLow c + (decimalHighW c - decimalLow c) * r, rfl, ?_, ?_⟩
      · rcases le_total (decimalLow c) (decimalHighW c) with hle | hge
        · rw [min_eq_left hle]
          nlinarith [mul_nonneg (sub_nonneg.mpr hle) hr0]
        · rw [min_eq_right hge]
          have hd : decimalHighW c - decimalLow c ≤ 0 := by linarith
          have : (decimalHighW c - decimalLow c) * 1 ≤ (decimalHighW c - decimalLow c) * r := by
            apply mul_le_mul_of_nonpos_left (le_of_lt hr1) hd
          linarith
      · rcases le_total (decimalLow c) (decimalHighW c) with hle | hge
        · rw [max_eq_right hle]
          have : (decimalHighW c - decimalLow c) * r ≤ (decimalHighW c - decimalLow c) * 1 := by
            apply mul_le_mul_of_nonneg_left (le_of_lt hr1) (by linarith)
          linarith
        · rw [max_eq_left hge]
          have hd : decimalHighW c - decimalLow c ≤ 0 := by linarith
          nlinarith [mul_nonneg (neg_nonneg.mpr hd) hr0]

/-- Witness for the amended C5 at a concrete constraint and stream. -/
theorem claim5_amended_witness :
    conDecimalMinOnly.type = FieldType.decimal ∧
    ((generateValue conDecimalMinOnly "." streamZero 0).1 = "" ∨
    ∃ q : Rat,
      (generateValue conDecimalMinOnly "." streamZero 0).1 =
        sepSwap "." (formatFixed3 (quantize3 q)) ∧
      min (decimalLow conDecimalMinOnly) (decimalHighW conDecimalMinOnly) ≤ q ∧
      q ≤ max (decimalLow conDecimalMinOnly) (decimalHighW conDecimalMinOnly)) :=
  ⟨rfl, claim5_amended conDecimalMinOnly streamZero "." 0 rfl⟩

/-- Counterexample to claim C5: for a decimal field with `min_value = 2000`
and `max_value` unset, the source resolves the upper bound to the constant
1000 (the float policy of the claim would give `max(2000 + 1, 1000) = 2001`),
and on the same stream the source emits "1500.000" — below `min_value` —
where the claimed policy would emit "2000.500". -/
theorem claim5_counterexample :
    (generateValue conDecimalMinOnly "." streamHalf 0).1 = "1500.000" ∧
    (specDecimalGenerate conDecimalMinOnly "." streamHalf).1 = "2000.500" ∧
    ("1500.000" : String) ≠ "2000.500" ∧
    decimalHigh conDecimalMinOnly = 1000 ∧
    max (decimalLow conDecimalMinOnly + 1) 1000 = 2001 := by
  refine ⟨by decide, by decide, by decide, by decide, by decide⟩

theorem generateValue_now_indep (c : FieldConstraint) (sep : String) (σ : RandState)
    (now1 now2 : Int)
    (hd : (c.type = FieldType.date ∨ c.type = FieldType.datetime) →
      c.date_min.isSome ∧ c.date_max.isSome) :
    generateValue c sep σ now1 = generateValue c sep σ now2 := by
  unfold generateValue
  rcases hpr : pyRandom σ with ⟨q, σ1⟩
  dsimp only
  by_cases hnull : q < nullProbability c ∧ c.nullable = true
  · simp only [if_pos hnull]
  · simp only [if_neg hnull]
    unfold genBody
    by_cases hb : c.type = FieldType.boolean
    · simp only [if_pos hb]
    · simp only [if_neg hb]
      by_cases hi : c.type = FieldType.integer
      · simp only [if_pos hi]
      · simp only [if_neg hi]
        by_cases hf : c.type = FieldType.float
        · simp only [if_pos hf]
        · simp only [if_neg hf]
          by_cases hdec : c.type = FieldType.decimal
          · simp only [if_pos hdec]
          · simp only [if_neg hdec]
            by_cases hdt : c.type = FieldType.date ∨ c.type = FieldType.datetime
            · simp only [if_pos hdt]
              obtain ⟨hm, hx⟩ := hd hdt
              rcases hmv : c.date_min with _ | a
              · simp [hmv] at hm
              · rcases hxv : c.date_max with _ | b
                · simp [hxv] at hx
                · simp only [hmv, hxv, Option.getD_some]
            · simp only [if_neg hdt]

theorem genRow_now_indep (sep : String) (now1 now2 : Int) :
    ∀ (fields : List FieldConstraint) (σ : RandState),
      (∀ f ∈ fields, (f.type = FieldType.date ∨ f.type = FieldType.datetime) →
        f.date_min.isSome ∧ f.date_max.isSome) →
      genRow fields sep now1 σ = genRow fields sep now2 σ := by
  intro fields
  induction fields with
  | nil => intro σ _; rfl
  | cons c rest ih =>
    intro σ hd
    unfold genRow
    dsimp only
    rw [generateValue_now_indep c sep σ now1 now2 (hd c (List.mem_cons_self c rest))]
    rcases hv : generateValue c sep σ now2 with ⟨v, σ1⟩
    dsimp only
    rw [ih σ1 (fun f hf => hd f (List.mem_cons_of_mem c hf))]

theorem genRowsAux_now_indep (fields : List FieldConstraint) (sep : String)
    (now1 now2 : Int)
    (hd : ∀ f ∈ fields, (f.type = FieldType.date ∨ f.type = FieldType.datetime) →
      f.date_min.isSome ∧ f.date_max.isSome) :
    ∀ (n : Nat) (σ : RandState),
      genRowsAux fields sep now1 n σ = genRowsAux fields sep now2 n σ := by
  intro n
  induction n with
  | zero => intro σ; rfl
  | succ k ih =>
    intro σ
    unfold genRowsAux
    rw [genRow_now_indep sep now1 now2 fields σ hd]
    rcases hv : genRow fields sep now2 σ with ⟨r, σ1⟩
    try dsimp only
    rw [ih σ1]

/-- Claim C2 (amended): two synthesis calls with identical arguments
(profile, row count, seed, decimal-separator override) produce byte-identical
output whenever every date/datetime-typed field of the profile carries both
`date_min` and `date_max` — as every field of a profile produced by profiling
does.  The ambient stream state and the wall clock are then irrelevant: with a
seed, the stream is re-initialised, and only the date branch with a missing
bound ever reads the clock. -/
theorem claim2_amended (P : ProfileResult) (n : Nat) (s : Int) (sep : Option String)
    (σ1 σ2 : RandState) (now1 now2 : Int)
    (hd : ∀ f ∈ P.fields, (f.type = FieldType.date ∨ f.type = FieldType.datetime) →
      f.date_min.isSome ∧ f.date_max.isSome) :
    profileToCsvBytes P n (some s) sep σ1 now1 = profileToCsvBytes P n (some s) sep σ2 now2 := by
  have hGR : generateRows P n (some s) σ1 now1 = generateRows P n (some s) σ2 now2 := by
    unfold generateRows
    by_cases hcap : n > MAX_ROWS
    · simp only [if_pos hcap]
    · simp only [if_neg hcap]
      try dsimp only
      rw [genRowsAux_now_indep P.fields
        (if P.decimal_separator = "" then "." else P.decimal_separator) now1 now2 hd n]
  unfold profileToCsvBytes profileToCsv
  rw [hGR]

/-- Witness for the amended C2: the two-field test profile (no date columns)
at concrete arguments, two distinct ambient streams and two distinct clock
values. -/
theorem claim2_amended_witness :
    (∀ f ∈ profileBasic.fields,
      (f.type = FieldType.date ∨ f.type = FieldType.datetime) →
      f.date_min.isSome ∧ f.date_max.isSome) ∧
    profileToCsvBytes profileBasic 2 (some 42) none streamZero 0 =
      profileToCsvBytes profileBasic 2 (some 42) none streamHalf 123456 :=
  ⟨by decide, claim2_amended profileBasic 2 42 none streamZero streamHalf 0 123456
    (by decide)⟩

/-- Counterexample to claim C2: a valid profile whose single date field has no
date bounds makes `profile_to_csv` read the wall clock (`datetime.now()`), so
the identical (profile, rows, seed, separator) arguments give different bytes
at two different call times — here 1970-01-01 versus 1972-09-27 (epoch seconds
0 and 86,400,000). -/
theorem claim2_counterexample :
    profileToCsvBytes profileDateUnbounded 1 (some 0) none streamZero 0 ≠
      profileToCsvBytes profileDateUnbounded 1 (some 0) none streamZero 86400000 := by
  decide
